import Mathlib

/-!
Verification of the Antigravity-Manager LLM reverse proxy core.

The Rust sources under src/src-tauri/src are embedded shallowly:
strings are lists of characters, serde_json values are an inductive
Json type, and the per-protocol retry loops become pure functions over
a list of per-attempt upstream results.  Definitions keep the names of
the Rust items they embed.  serde_json string-to-JSON parsing is kept
abstract: functions that need it take a parse oracle as an argument.
-/

set_option maxRecDepth 4000

namespace AGM

/-- Rust strings are modelled as lists of characters. -/
abbrev Str := List Char

/-- Shorthand turning a Lean string literal into the Str model. -/
def cs (s : String) : Str := s.data

/-- Rust str::starts_with for string patterns. -/
def startsWithStr (p s : Str) : Bool := p.isPrefixOf s

/-- Rust str::ends_with for string patterns. -/
def endsWithStr (p s : Str) : Bool := p.isSuffixOf s

/-- Rust str::contains for string patterns: substring search. -/
def containsSub : Str → Str → Bool
  | n, [] => n.isEmpty
  | n, h :: t => n.isPrefixOf (h :: t) || containsSub n t

/-- Fuelled helper: repeatedly drop the prefix p as long as it is present. -/
def dropPrefixRepeat : Nat → Str → Str → Str
  | 0, _, s => s
  | fuel + 1, p, s =>
    if !p.isEmpty && p.isPrefixOf s then
      dropPrefixRepeat fuel p (s.drop p.length)
    else s

/-- Rust str::trim_end_matches for a string pattern: removes every trailing
repetition of the pattern. -/
def trimEndMatchesStr (p s : Str) : Str :=
  (dropPrefixRepeat s.length p.reverse s.reverse).reverse

/-- Rust str::trim_end_matches for a char pattern: removes every trailing
occurrence of the character. -/
def trimEndMatchesChar (c : Char) (s : Str) : Str :=
  trimEndMatchesStr [c] s

/-- Rust str::trim_start, on ASCII whitespace. -/
def trimStart : Str → Str
  | [] => []
  | c :: t => if c.isWhitespace then trimStart t else c :: t

/-- Rust str::trim: whitespace removed from both ends. -/
def trimStr (s : Str) : Str := (trimStart (trimStart s.reverse).reverse)

/-- Decimal digits of a natural number (most significant first). -/
def natToStr (n : Nat) : Str := Nat.toDigits 10 n

/-- A JSON value, mirroring serde_json::Value.  Numbers are kept as a
decimal mantissa and scale (value = mantissa / 10 ^ scale), which is enough
for every literal the embedded code builds.  Objects are association lists
looked up by first match, as a serde_json Map with unique keys. -/
inductive Json where
  | null : Json
  | bool (b : Bool) : Json
  | num (mantissa : Int) (scale : Nat) : Json
  | str (s : Str) : Json
  | arr (items : List Json) : Json
  | obj (fields : List (Str × Json)) : Json

/-- Lookup of a key in an object field list (serde_json Map::get). -/
def lookupField (k : Str) : List (Str × Json) → Option Json
  | [] => none
  | (k2, v) :: t => if k2 = k then some v else lookupField k t

/-- serde_json Value::get with a string key: first matching field of an
object, None on other shapes. -/
def Json.get (k : Str) : Json → Option Json
  | .obj fields => lookupField k fields
  | _ => none

/-- serde_json Value::get with a numeric index: arrays only. -/
def Json.getIdx (i : Nat) : Json → Option Json
  | .arr items => items.get? i
  | _ => none

/-- serde_json Value::as_str. -/
def Json.asStr : Json → Option Str
  | .str s => some s
  | _ => none

/-- serde_json Value::as_array. -/
def Json.asArr : Json → Option (List Json)
  | .arr items => some items
  | _ => none

/-- serde_json Value::as_bool. -/
def Json.asBool : Json → Option Bool
  | .bool b => some b
  | _ => none

/-- Apply f to the value of the first field named k, leaving the rest alone
(serde_json Map mutation through entry or get_mut). -/
def setFirst (k : Str) (f : Json → Json) : List (Str × Json) → List (Str × Json)
  | [] => []
  | (k2, v) :: t => if k2 = k then (k2, f v) :: t else (k2, v) :: setFirst k f t

/-! ## src/src-tauri/src/proxy/mappers/common_utils.rs -/

/-- RequestConfig from common_utils.rs: the grounding resolution result. -/
structure RequestConfig where
  request_type : Str
  inject_google_search : Bool
  final_model : Str
  image_config : Option Json

/-- Aspect-ratio chain of parse_image_config (common_utils.rs lines 76-80):
first of -16x9, -9x16, -4x3, -3x4, -1x1 found by substring search wins,
default 1:1. -/
def aspectRatioOf (model_name : Str) : Str :=
  if containsSub (cs "-16x9") model_name then cs "16:9"
  else if containsSub (cs "-9x16") model_name then cs "9:16"
  else if containsSub (cs "-4x3") model_name then cs "4:3"
  else if containsSub (cs "-3x4") model_name then cs "3:4"
  else if containsSub (cs "-1x1") model_name then cs "1:1"
  else cs "1:1"

/-- parse_image_config (common_utils.rs lines 72-93): aspect ratio from the
suffix tokens, imageSize 4K exactly when -4k or -hd occurs, and the clean
model name, always exactly gemini-3-pro-image. -/
def parse_image_config (model_name : Str) : Json × Str :=
  let aspect_ratio := aspectRatioOf model_name
  let is_hd := containsSub (cs "-4k") model_name || containsSub (cs "-hd") model_name
  let config :=
    (cs "aspectRatio", Json.str aspect_ratio) ::
      (if is_hd then [(cs "imageSize", Json.str (cs "4K"))] else [])
  (Json.obj config, cs "gemini-3-pro-image")

/-- High-quality grounding allowlist of resolve_request_config
(common_utils.rs lines 50-53). -/
def is_high_quality_model (mapped_model : Str) : Bool :=
  (mapped_model == cs "gemini-2.5-flash") || (mapped_model == cs "gemini-1.5-pro") ||
    startsWithStr (cs "gemini-1.5-pro-") mapped_model ||
    startsWithStr (cs "gemini-2.5-flash-") mapped_model

/-- resolve_request_config (common_utils.rs lines 26-68), embedded statement
for statement: image-generation check first, then the -online suffix and the
high-quality allowlist feed one enable_networking flag. -/
def resolve_request_config (original_model mapped_model : Str) : RequestConfig :=
  if startsWithStr (cs "gemini-3-pro-image") mapped_model then
    let parsed := parse_image_config original_model
    { request_type := cs "image_gen"
      inject_google_search := false
      final_model := parsed.2
      image_config := some parsed.1 }
  else
    let is_online_suffix := endsWithStr (cs "-online") original_model
    let final_model := trimEndMatchesStr (cs "-online") mapped_model
    let enable_networking := is_online_suffix || is_high_quality_model mapped_model
    { request_type := if enable_networking then cs "web_search" else cs "agent"
      inject_google_search := enable_networking
      final_model := final_model
      image_config := none }

/-- Test of the has_search check (common_utils.rs line 100): does a tools
entry carry a googleSearch key. -/
def gsPred (t : Json) : Bool := (t.get (cs "googleSearch")).isSome

/-- The entry pushed by inject_google_search_tool. -/
def gsEntry : Json := Json.obj [(cs "googleSearch", Json.obj [])]

/-- Mutation of the tools value by inject_google_search_tool: push the
googleSearch entry into an array lacking one; leave other shapes alone. -/
def modifyTools (v : Json) : Json :=
  match v with
  | .arr tools_arr =>
    if tools_arr.any gsPred then .arr tools_arr
    else .arr (tools_arr ++ [gsEntry])
  | other => other

/-- inject_google_search_tool (common_utils.rs lines 96-106): on an object
body, materialise tools as an empty array when absent, then push a
googleSearch entry unless one is already present.  Non-object bodies and
non-array tools values are left alone. -/
def inject_google_search_tool (body : Json) : Json :=
  match body with
  | .obj fields =>
    let fields1 :=
      if (lookupField (cs "tools") fields).isSome then fields
      else fields ++ [(cs "tools", Json.arr [])]
    .obj (setFirst (cs "tools") modifyTools fields1)
  | other => other

/-- Count of tools entries carrying a googleSearch key, as an observation
for the injection claims. -/
def countGoogleSearchEntries (body : Json) : Nat :=
  match body.get (cs "tools") with
  | some (.arr tools_arr) => (tools_arr.filter gsPred).length
  | _ => 0

/-- Predicate of the injection claim: the body is an object whose tools
field is absent or an array. -/
def toolsAbsentOrArray (body : Json) : Prop :=
  ∃ fields, body = Json.obj fields ∧
    (lookupField (cs "tools") fields = none ∨
      ∃ items, lookupField (cs "tools") fields = some (Json.arr items))

/-- Aspect ratio as claim C4 states it: the four suffix tokens in priority
order, else 1:1. -/
def specAspectRatio (om : Str) : Str :=
  if containsSub (cs "-16x9") om then cs "16:9"
  else if containsSub (cs "-9x16") om then cs "9:16"
  else if containsSub (cs "-4x3") om then cs "4:3"
  else if containsSub (cs "-3x4") om then cs "3:4"
  else cs "1:1"

/-- Image config written from claim C4: aspect ratio from the suffix tokens,
and imageSize 4K exactly when -4k or -hd is present. -/
def specImageConfig (om : Str) : Json :=
  Json.obj
    ((cs "aspectRatio", Json.str (specAspectRatio om)) ::
      (if containsSub (cs "-4k") om || containsSub (cs "-hd") om then
        [(cs "imageSize", Json.str (cs "4K"))]
      else []))

/-- High-quality allowlist of claim C4 / spec section 4.3: the
gemini-2.5-flash and gemini-1.5-pro model families, i.e. the exact names or
a dash-extended variant. -/
def specHighQuality (mm : Str) : Bool :=
  (mm == cs "gemini-2.5-flash") || (mm == cs "gemini-1.5-pro") ||
    startsWithStr (cs "gemini-1.5-pro-") mm || startsWithStr (cs "gemini-2.5-flash-") mm

/-- Decision tree of claim C4, written from the spec sentence by sentence:
four ordered steps, the high-quality allowlist being the gemini-2.5-flash /
gemini-1.5-pro families and trailing -online suffixes being trimmed. -/
def resolve_request_config_spec (original_model mapped_model : Str) : RequestConfig :=
  if startsWithStr (cs "gemini-3-pro-image") mapped_model then
    { request_type := cs "image_gen"
      inject_google_search := false
      final_model := cs "gemini-3-pro-image"
      image_config := some (specImageConfig original_model) }
  else if endsWithStr (cs "-online") original_model then
    { request_type := cs "web_search"
      inject_google_search := true
      final_model := trimEndMatchesStr (cs "-online") mapped_model
      image_config := none }
  else if specHighQuality mapped_model then
    { request_type := cs "web_search"
      inject_google_search := true
      final_model := trimEndMatchesStr (cs "-online") mapped_model
      image_config := none }
  else
    { request_type := cs "agent"
      inject_google_search := false
      final_model := trimEndMatchesStr (cs "-online") mapped_model
      image_config := none }

/-! ## src/src-tauri/src/proxy/upstream/client.rs -/

/-- Decimal value of a digit run. -/
def digitsVal (s : Str) : Nat :=
  s.foldl (fun acc c => acc * 10 + (c.toNat - 48)) 0

/-- Plain decimal digit run parsed to a number; none when empty or when a
non-digit occurs. -/
def parseDigits (s : Str) : Option Nat :=
  if s.isEmpty || !s.all Char.isDigit then none
  else some (digitsVal s)

/-- Rust u64::from_str: an optional leading plus sign, then digits, value
below 2^64. -/
def parseU64 (s : Str) : Option Nat :=
  let body := if s.head? = some '+' then s.tail else s
  match parseDigits body with
  | some n => if n < 2 ^ 64 then some n else none
  | none => none

/-- Unsigned decimal literal: digits (the takeWhile prefix), optionally a
dot and fraction digits, at least one digit in all; the value is
mantissa / 10 ^ scale. -/
def parseF64Body (body : Str) : Option (Nat × Nat) :=
  match body.drop (body.takeWhile Char.isDigit).length with
  | [] => (parseDigits (body.takeWhile Char.isDigit)).map (fun n => (n, 0))
  | c :: frac =>
    if c = '.' then
      if frac.all Char.isDigit && !((body.takeWhile Char.isDigit).isEmpty && frac.isEmpty) then
        some (digitsVal (body.takeWhile Char.isDigit) * 10 ^ frac.length + digitsVal frac,
          frac.length)
      else none
    else none

/-- Rust f64::from_str restricted to plain decimal literals (optional sign,
then an unsigned decimal): result is (negative, mantissa, scale).  The
exotic float spellings (exponents, inf, nan) never occur in retry hints and
are out of the model. -/
def parseF64Dec (s : Str) : Option (Bool × Nat × Nat) :=
  match s with
  | [] => none
  | c :: rest =>
    if c = '-' then (parseF64Body rest).map (fun mn => (true, mn.1, mn.2))
    else if c = '+' then (parseF64Body rest).map (fun mn => (false, mn.1, mn.2))
    else (parseF64Body (c :: rest)).map (fun mn => (false, mn.1, mn.2))

/-- Rust expression (x * 1000.0) as u64 on a parsed decimal: truncation
toward zero with saturation, so negatives collapse to 0. -/
def timesThousandAsU64 (d : Bool × Nat × Nat) : Nat :=
  if d.1 then 0 else min ((d.2.1 * 1000) / 10 ^ d.2.2) (2 ^ 64 - 1)

/-- parse_duration_ms (client.rs lines 250-269): strings ending in ms parse
the rest as u64 milliseconds; otherwise strings ending in s parse the rest
as f64 seconds times 1000; anything else yields none.  Both suffix trims are
trim_end_matches, hence repeated. -/
def parse_duration_ms (duration_str : Str) : Option Nat :=
  if endsWithStr (cs "ms") duration_str then
    parseU64 (trimEndMatchesStr (cs "ms") duration_str)
  else if endsWithStr (cs "s") duration_str then
    (parseF64Dec (trimEndMatchesChar 's' duration_str)).map timesThousandAsU64
  else none

/-- Fallback branch of parse_retry_delay: error.quotaResetDelay as a string,
parsed as a duration. -/
def quotaResetDelayPath (j : Json) : Option Nat :=
  match ((j.get (cs "error")).bind (Json.get (cs "quotaResetDelay"))).bind Json.asStr with
  | some delay_str => parse_duration_ms delay_str
  | none => none

/-- JSON part of parse_retry_delay (client.rs lines 225-241): read
error.retryInfo.retryDelay when it is a string (its parse result is final),
otherwise fall back to error.quotaResetDelay. -/
def parse_retry_delay_json (j : Json) : Option Nat :=
  match (j.get (cs "error")).bind (Json.get (cs "retryInfo")) with
  | some retry_info =>
    match (retry_info.get (cs "retryDelay")).bind Json.asStr with
    | some delay_str => parse_duration_ms delay_str
    | none => quotaResetDelayPath j
  | none => quotaResetDelayPath j

/-- parse_retry_delay (client.rs lines 223-244): parse the error body as
JSON through the serde oracle, then walk the two hint locations.  The same
function stands for proxy::upstream::retry::parse_retry_delay used by the
OpenAI handler; that module is not under src/.  Modelled from the spec:
section 4.5 gives the identical parse order and formats. -/
def parse_retry_delay (parse : Str → Option Json) (error_text : Str) : Option Nat :=
  match parse error_text with
  | some j => parse_retry_delay_json j
  | none => none

/-- Format predicate of claim C8: a string of shape int followed by ms. -/
def isIntMsFormat (s : Str) : Bool :=
  endsWithStr (cs "ms") s && (parseU64 s.dropLast.dropLast).isSome

/-- Format predicate of claim C8: a string of shape float followed by one s. -/
def isFloatSFormat (s : Str) : Bool :=
  endsWithStr (cs "s") s && (parseF64Dec s.dropLast).isSome

/-- First hint location of the claim: error.retryInfo.retryDelay as a
string. -/
def retryDelayHintStr (j : Json) : Option Str :=
  ((j.get (cs "error")).bind (Json.get (cs "retryInfo"))).bind
    (fun retry_info => (retry_info.get (cs "retryDelay")).bind Json.asStr)

/-! ## src/src-tauri/src/proxy/middleware/auth.rs -/

/-- Case-insensitive header lookup, as the axum HeaderMap performs. -/
def headerGet (name : Str) (headers : List (Str × Str)) : Option Str :=
  match headers with
  | [] => none
  | (k, v) :: t => if k.map Char.toLower = name then some v else headerGet name t

/-- Rust str::strip_prefix. -/
def stripPrefixStr (p s : Str) : Option Str :=
  if p.isPrefixOf s then some (s.drop p.length) else none

/-- Decision of the auth middleware: pass the request on or answer 401. -/
inductive AuthDecision where
  | forward : AuthDecision
  | unauthorized : AuthDecision
deriving DecidableEq

/-- API-key extraction of auth_middleware (auth.rs lines 15-25): bearer
token of the Authorization header, else the x-api-key header. -/
def auth_api_key (headers : List (Str × Str)) : Option Str :=
  match (headerGet (cs "authorization") headers).bind (stripPrefixStr (cs "Bearer ")) with
  | some k => some k
  | none => headerGet (cs "x-api-key") headers

/-- auth_middleware (auth.rs lines 10-34): the guard is
api_key.is_some() or true, so the request is always forwarded. -/
def auth_middleware (headers : List (Str × Str)) : AuthDecision :=
  if (auth_api_key headers).isSome || true then .forward else .unauthorized

/-! ## Envelope bodies carrying a requestId -/

/-- Fixed all-categories-OFF safetySettings block shared by the builders. -/
def safety_settings : Json :=
  Json.arr
    [Json.obj [(cs "category", .str (cs "HARM_CATEGORY_HARASSMENT")), (cs "threshold", .str (cs "OFF"))],
     Json.obj [(cs "category", .str (cs "HARM_CATEGORY_HATE_SPEECH")), (cs "threshold", .str (cs "OFF"))],
     Json.obj [(cs "category", .str (cs "HARM_CATEGORY_SEXUALLY_EXPLICIT")), (cs "threshold", .str (cs "OFF"))],
     Json.obj [(cs "category", .str (cs "HARM_CATEGORY_DANGEROUS_CONTENT")), (cs "threshold", .str (cs "OFF"))],
     Json.obj [(cs "category", .str (cs "HARM_CATEGORY_CIVIC_INTEGRITY")), (cs "threshold", .str (cs "OFF"))]]

/-- Replace the first field named k, or append it (serde_json index
assignment on an object). -/
def insertField (k : Str) (v : Json) : List (Str × Json) → List (Str × Json)
  | [] => [(k, v)]
  | (k2, v2) :: t => if k2 = k then (k2, v) :: t else (k2, v2) :: insertField k v t

/-- serde_json index assignment body[k] = v on an object value. -/
def jsonInsert (k : Str) (v : Json) : Json → Json
  | .obj fields => .obj (insertField k v fields)
  | other => other

/-- requestId of transform_claude_request_in (request.rs line 106): the
literal agent- prefix in front of a fresh v4 UUID rendering. -/
def claudeRequestId (uuid : Str) : Str := cs "agent-" ++ uuid

/-- Envelope of transform_claude_request_in (request.rs lines 105-125): the
fixed six keys, with metadata.user_id copied to request.sessionId when
present.  The inner request is passed in, already built. -/
def transform_claude_request_in_body (project_id uuid : Str) (inner_request : Json)
    (final_model request_type : Str) (metadata_user_id : Option Str) : Json :=
  let body := Json.obj
    [(cs "project", .str project_id),
     (cs "requestId", .str (claudeRequestId uuid)),
     (cs "request", inner_request),
     (cs "model", .str final_model),
     (cs "userAgent", .str (cs "antigravity")),
     (cs "requestType", .str request_type)]
  match metadata_user_id with
  | some user_id =>
    match body with
    | .obj fields => .obj (setFirst (cs "request") (jsonInsert (cs "sessionId") (.str user_id)) fields)
    | other => other
  | none => body

/-- Per-task body of handle_images_generations (openai.rs lines 1138-1163):
a fresh agent- requestId for every spawned call. -/
def images_generations_body (project_id uuid final_prompt aspect_ratio : Str) : Json :=
  Json.obj
    [(cs "project", .str project_id),
     (cs "requestId", .str (cs "agent-" ++ uuid)),
     (cs "model", .str (cs "gemini-3-pro-image")),
     (cs "userAgent", .str (cs "antigravity")),
     (cs "requestType", .str (cs "image_gen")),
     (cs "request", Json.obj
       [(cs "contents", Json.arr
         [Json.obj [(cs "role", .str (cs "user")),
                    (cs "parts", Json.arr [Json.obj [(cs "text", .str final_prompt)]])]]),
        (cs "generationConfig", Json.obj
          [(cs "candidateCount", .num 1 0),
           (cs "imageConfig", Json.obj [(cs "aspectRatio", .str aspect_ratio)])]),
        (cs "safetySettings", safety_settings)])]

/-- Body of handle_images_edits (openai.rs lines 1404-1431): built once per
request with an img-edit- requestId, then cloned for each of the n upstream
calls. -/
def images_edits_body (project_id uuid model : Str) (contents_parts : List Json) : Json :=
  Json.obj
    [(cs "project", .str project_id),
     (cs "requestId", .str (cs "img-edit-" ++ uuid)),
     (cs "model", .str model),
     (cs "userAgent", .str (cs "antigravity")),
     (cs "requestType", .str (cs "image_gen")),
     (cs "request", Json.obj
       [(cs "contents", Json.arr
         [Json.obj [(cs "role", .str (cs "user")),
                    (cs "parts", Json.arr contents_parts)]]),
        (cs "generationConfig", Json.obj
          [(cs "candidateCount", .num 1 0),
           (cs "maxOutputTokens", .num 8192 0),
           (cs "stopSequences", Json.arr []),
           (cs "temperature", .num 10 1),
           (cs "topP", .num 95 2),
           (cs "topK", .num 40 0)]),
        (cs "safetySettings", safety_settings)])]

/-- Character class of the claimed requestId pattern [0-9a-f-]. -/
def isHexLowerOrDash (c : Char) : Bool :=
  (('0' ≤ c) && (c ≤ '9')) || (('a' ≤ c) && (c ≤ 'f')) || (c == '-')

/-- Matcher for the claimed pattern agent-[0-9a-f-]\x7b36\x7d anchored at
both ends. -/
def agentRequestIdMatches (s : Str) : Bool :=
  startsWithStr (cs "agent-") s && ((s.drop 6).length == 36) && (s.drop 6).all isHexLowerOrDash

/-- Shape of the rendering of a v4 UUID by the uuid crate: 36 characters of
lowercase hex digits and hyphens. -/
def uuidShape (uuid : Str) : Prop :=
  uuid.length = 36 ∧ uuid.all isHexLowerOrDash = true

/-! ## Retry loops of the three protocol handlers

The handlers in src/src-tauri/src/proxy/handlers/\x7bopenai,claude,gemini\x7d.rs
share one skeleton: compute an attempt budget from the pool size, then loop,
each iteration producing either a network error, a 2xx success, or an HTTP
error that is classified into rotate-and-continue, sleep-and-continue, or
return-as-is.  The model below feeds the loop a list of per-attempt upstream
results; token acquisition and request transformation (whose token-manager
code is not under src/) are taken to succeed, which the claims never touch. -/

/-- MAX_RETRY_ATTEMPTS, the constant 3 of all three handler files. -/
def MAX_RETRY_ATTEMPTS : Nat := 3

/-- Attempt budget of handle_chat_completions (openai.rs line 149):
MAX_RETRY_ATTEMPTS.min(pool_size).max(1). -/
def openaiMaxAttempts (pool_size : Nat) : Nat :=
  max (min MAX_RETRY_ATTEMPTS pool_size) 1

/-- Attempt budget of handle_messages (claude.rs line 39). -/
def claudeMaxAttempts (pool_size : Nat) : Nat :=
  max (min MAX_RETRY_ATTEMPTS pool_size) 1

/-- Attempt budget of handle_generate (gemini.rs line 37). -/
def geminiMaxAttempts (pool_size : Nat) : Nat :=
  max (min MAX_RETRY_ATTEMPTS pool_size) 1

/-- clamp(n, 1, 3) as the claim states the budget. -/
def clampAttempts (n : Nat) : Nat := min (max n 1) 3

/-- Classification of a non-2xx upstream response inside a handler loop. -/
inductive ErrDecision where
  | retryRotate : ErrDecision
  | retrySleep (delay_ms : Nat) : ErrDecision
  | returnAsIs : ErrDecision
deriving DecidableEq

/-- Error classification of handle_messages (claude.rs lines 175-191): only
429, 403 and 401 rotate; a 429 whose body mentions QUOTA_EXHAUSTED or quota
is returned as-is; every other status is returned as-is. -/
def claudeClassify (status : Nat) (error_text : Str) : ErrDecision :=
  if status == 429 || status == 403 || status == 401 then
    if status == 429 &&
        (containsSub (cs "QUOTA_EXHAUSTED") error_text || containsSub (cs "quota") error_text) then
      .returnAsIs
    else .retryRotate
  else .returnAsIs

/-- Error classification of handle_generate (gemini.rs lines 161-180), the
same shape as the Claude handler. -/
def geminiClassify (status : Nat) (error_text : Str) : ErrDecision :=
  if status == 429 || status == 403 || status == 401 then
    if status == 429 &&
        (containsSub (cs "QUOTA_EXHAUSTED") error_text || containsSub (cs "quota") error_text) then
      .returnAsIs
    else .retryRotate
  else .returnAsIs

/-- Error classification of handle_chat_completions (openai.rs lines
346-405).  The boolean is whether mark_rate_limited was called.  On
429/529/503/500 the handler first tries the retry hint (sleep min(hint+200,
10000) ms and continue); only with no parsable hint does QUOTA_EXHAUSTED end
the loop; otherwise rotate.  401/403 rotate; everything else returns as-is. -/
def openaiClassify (parse : Str → Option Json) (status : Nat) (error_text : Str) :
    Bool × ErrDecision :=
  if status == 429 || status == 529 || status == 503 || status == 500 then
    (true,
      match parse_retry_delay parse error_text with
      | some delay_ms => .retrySleep (min (delay_ms + 200) 10000)
      | none =>
        if containsSub (cs "QUOTA_EXHAUSTED") error_text then .returnAsIs
        else .retryRotate)
  else if status == 403 || status == 401 then (false, .retryRotate)
  else (false, .returnAsIs)

/-- Result of one upstream attempt as the handler loop observes it. -/
inductive UpResult where
  | netErr (message : Str) : UpResult
  | success : UpResult
  | httpErr (status : Nat) (error_text : Str) : UpResult

/-- Outcome of a handler loop toward the client: a translated success, the
upstream status and body passed through, or the all-attempts-failed reply. -/
inductive HandlerOutcome where
  | clientSuccess : HandlerOutcome
  | upstreamReturned (status : Nat) (body : Str) : HandlerOutcome
  | allAttemptsFailed (status : Nat) (body : Json) : HandlerOutcome

/-- canonical_reason of the http crate for the status codes the handlers
meet; codes without a registered reason (such as 529) display
the unknown marker. -/
def canonicalReason (status : Nat) : Str :=
  if status == 400 then cs "Bad Request"
  else if status == 401 then cs "Unauthorized"
  else if status == 403 then cs "Forbidden"
  else if status == 404 then cs "Not Found"
  else if status == 429 then cs "Too Many Requests"
  else if status == 500 then cs "Internal Server Error"
  else if status == 502 then cs "Bad Gateway"
  else if status == 503 then cs "Service Unavailable"
  else cs "<unknown status code>"

/-- Display of an http StatusCode: the code and its canonical reason. -/
def statusDisplay (status : Nat) : Str :=
  natToStr status ++ cs " " ++ canonicalReason status

/-- last_error recorded by the Claude handler for an HTTP error (claude.rs
line 173): HTTP followed by the StatusCode Display and the body. -/
def claudeLastError (status : Nat) (error_text : Str) : Str :=
  cs "HTTP " ++ statusDisplay status ++ cs ": " ++ error_text

/-- last_error recorded by the OpenAI and Gemini handlers (openai.rs line
337, gemini.rs line 164): HTTP followed by the numeric code and the body. -/
def numericLastError (status : Nat) (error_text : Str) : Str :=
  cs "HTTP " ++ natToStr status ++ cs ": " ++ error_text

/-- Message of the Claude handler once every attempt failed (claude.rs line
198). -/
def claudeExhaustedMessage (max_attempts : Nat) (last_error : Str) : Str :=
  cs "All " ++ natToStr max_attempts ++ cs " attempts failed. Last error: " ++ last_error

/-- JSON error body of the Claude handler once every attempt failed
(claude.rs lines 194-200). -/
def claudeExhaustedBody (max_attempts : Nat) (last_error : Str) : Json :=
  Json.obj
    [(cs "type", .str (cs "error")),
     (cs "error", Json.obj
       [(cs "type", .str (cs "overloaded_error")),
        (cs "message", .str (claudeExhaustedMessage max_attempts last_error))])]

/-- Plain-text body of the OpenAI handler (openai.rs line 413) and the
Gemini handler (gemini.rs line 183) once every attempt failed. -/
def accountsExhaustedMessage (last_error : Str) : Str :=
  cs "All accounts exhausted. Last error: " ++ last_error

/-- Loop body of handle_messages (claude.rs lines 44-200), fuelled by the
remaining attempts; the pair is the outcome and the number of upstream
attempts performed. -/
def claudeLoopGo (max_attempts : Nat) : Nat → List UpResult → Str → HandlerOutcome × Nat
  | 0, _, last_error =>
    (.allAttemptsFailed 429 (claudeExhaustedBody max_attempts last_error), 0)
  | _ + 1, [], last_error =>
    (.allAttemptsFailed 429 (claudeExhaustedBody max_attempts last_error), 0)
  | fuel + 1, r :: rest, last_error =>
    match r with
    | .netErr e =>
      let next := claudeLoopGo max_attempts fuel rest e
      (next.1, next.2 + 1)
    | .success => (.clientSuccess, 1)
    | .httpErr status error_text =>
      match claudeClassify status error_text with
      | .returnAsIs => (.upstreamReturned status error_text, 1)
      | _ =>
        let next := claudeLoopGo max_attempts fuel rest (claudeLastError status error_text)
        (next.1, next.2 + 1)

/-- handle_messages retry loop over a pool of the given size and the listed
per-attempt upstream results. -/
def handle_messages_loop (pool_size : Nat) (responses : List UpResult) : HandlerOutcome × Nat :=
  claudeLoopGo (claudeMaxAttempts pool_size) (claudeMaxAttempts pool_size) responses (cs "")

/-- Loop body of handle_generate (gemini.rs lines 41-183). -/
def geminiLoopGo (max_attempts : Nat) : Nat → List UpResult → Str → HandlerOutcome × Nat
  | 0, _, last_error =>
    (.allAttemptsFailed 429 (.str (accountsExhaustedMessage last_error)), 0)
  | _ + 1, [], last_error =>
    (.allAttemptsFailed 429 (.str (accountsExhaustedMessage last_error)), 0)
  | fuel + 1, r :: rest, last_error =>
    match r with
    | .netErr e =>
      let next := geminiLoopGo max_attempts fuel rest e
      (next.1, next.2 + 1)
    | .success => (.clientSuccess, 1)
    | .httpErr status error_text =>
      match geminiClassify status error_text with
      | .returnAsIs => (.upstreamReturned status error_text, 1)
      | _ =>
        let next := geminiLoopGo max_attempts fuel rest (numericLastError status error_text)
        (next.1, next.2 + 1)

/-- handle_generate retry loop over a pool of the given size. -/
def handle_generate_loop (pool_size : Nat) (responses : List UpResult) : HandlerOutcome × Nat :=
  geminiLoopGo (geminiMaxAttempts pool_size) (geminiMaxAttempts pool_size) responses (cs "")

/-- Loop body of handle_chat_completions (openai.rs lines 160-421); the
serde parse oracle feeds the retry-hint parser. -/
def openaiLoopGo (parse : Str → Option Json) (max_attempts : Nat) :
    Nat → List UpResult → Str → HandlerOutcome × Nat
  | 0, _, last_error =>
    (.allAttemptsFailed 429 (.str (accountsExhaustedMessage last_error)), 0)
  | _ + 1, [], last_error =>
    (.allAttemptsFailed 429 (.str (accountsExhaustedMessage last_error)), 0)
  | fuel + 1, r :: rest, last_error =>
    match r with
    | .netErr e =>
      let next := openaiLoopGo parse max_attempts fuel rest e
      (next.1, next.2 + 1)
    | .success => (.clientSuccess, 1)
    | .httpErr status error_text =>
      match (openaiClassify parse status error_text).2 with
      | .returnAsIs => (.upstreamReturned status error_text, 1)
      | _ =>
        let next := openaiLoopGo parse max_attempts fuel rest (numericLastError status error_text)
        (next.1, next.2 + 1)

/-- handle_chat_completions retry loop over a pool of the given size. -/
def handle_chat_completions_loop (parse : Str → Option Json) (pool_size : Nat)
    (responses : List UpResult) : HandlerOutcome × Nat :=
  openaiLoopGo parse (openaiMaxAttempts pool_size) (openaiMaxAttempts pool_size) responses (cs "")

/-! ## Claude SSE translation, src/src-tauri/src/proxy/mappers/claude/mod.rs

The line-buffering glue, process_sse_line and emit_force_stop are embedded
from mod.rs.  The StreamingState emitters live in streaming.rs, which is not
under src/; they are modelled from the spec (section 3 StreamingState and
section 4.4.4): a block machine over \x7bnone, text, thinking, tool_use\x7d whose
emissions respect the message_start_sent and message_stop_sent flags, so
that nothing is emitted past message_stop and message_stop is never
emitted twice. -/

/-- Anthropic stream event kinds emitted toward the client. -/
inductive CEvent where
  | messageStart : CEvent
  | blockStart : CEvent
  | blockDelta : CEvent
  | blockStop : CEvent
  | messageDelta : CEvent
  | messageStop : CEvent
deriving DecidableEq

/-- current_block_kind of the StreamingState: none, text, thinking or
tool_use (none is spelled closed here). -/
inductive BlockKind where
  | closed : BlockKind
  | text : BlockKind
  | thinking : BlockKind
  | toolUse : BlockKind
deriving DecidableEq

/-- StreamingState of the Claude mapper, restricted to the fields that
decide which event kinds are emitted (the block index, usage echo and tool
ids do not change the kind sequence). -/
structure StreamingState where
  message_start_sent : Bool
  current_block_kind : BlockKind
  message_stop_sent : Bool

/-- StreamingState::new: nothing sent, no open block. -/
def StreamingState.init : StreamingState :=
  { message_start_sent := false, current_block_kind := .closed, message_stop_sent := false }

/-- Kind of an upstream Gemini part as the PartProcessor distinguishes them. -/
inductive PartKind where
  | text : PartKind
  | thinking : PartKind
  | functionCall : PartKind

/-- Modelled from the spec: GeminiPart deserialisation (models.rs is not
under src/).  A part is a functionCall, a thought text or a plain text;
other parts produce no stream events. -/
def partKindOf (p : Json) : Option PartKind :=
  if (p.get (cs "functionCall")).isSome then some .functionCall
  else
    match p.get (cs "text") with
    | some _ =>
      if (p.get (cs "thought")).bind Json.asBool = some true then some .thinking
      else some .text
    | none => none

/-- Block opened by a part kind. -/
def blockOf : PartKind → BlockKind
  | .text => .text
  | .thinking => .thinking
  | .functionCall => .toolUse

/-- Modelled from the spec: StreamingState::emit_message_start of the
missing streaming.rs.  It emits the message_start event; per the section 3
invariant nothing may follow message_stop, so after a forced stop it emits
nothing. -/
def emit_message_start (s : StreamingState) : List CEvent × StreamingState :=
  if s.message_stop_sent then ([], { s with message_start_sent := true })
  else ([.messageStart], { s with message_start_sent := true })

/-- content_block_stop for the currently open block, if any. -/
def closeBlockEvents (s : StreamingState) : List CEvent :=
  if s.current_block_kind == .closed then [] else [.blockStop]

/-- Modelled from the spec: PartProcessor::process of the missing
streaming.rs.  A part continues the open block with a delta, or closes it
and starts a block of the new kind; per the section 3 invariant nothing is
emitted once message_stop went out. -/
def processPart (s : StreamingState) (k : PartKind) : List CEvent × StreamingState :=
  if s.message_stop_sent then ([], s)
  else if s.current_block_kind == blockOf k then ([.blockDelta], s)
  else
    (closeBlockEvents s ++ [.blockStart, .blockDelta],
     { s with current_block_kind := blockOf k })

/-- Modelled from the spec: StreamingState::emit_finish of the missing
streaming.rs.  It closes the open block, sends message_delta when a finish
reason is known, and message_stop exactly once; a message_start is supplied
first when none was sent, keeping the section 3 event sequence well-formed
even for empty upstream streams. -/
def emit_finish (s : StreamingState) (finish_reason : Option Str) :
    List CEvent × StreamingState :=
  if s.message_stop_sent then ([], s)
  else
    ((if s.message_start_sent then [] else [.messageStart]) ++
       closeBlockEvents s ++
       (if finish_reason.isSome then [.messageDelta] else []) ++ [.messageStop],
     { message_start_sent := true, current_block_kind := .closed, message_stop_sent := true })

/-- emit_finish with the reason abstracted to its presence bit; the event
kinds depend only on whether a finish reason exists. -/
def emitFinishB (s : StreamingState) (has_reason : Bool) :
    List CEvent × StreamingState :=
  if s.message_stop_sent then ([], s)
  else
    ((if s.message_start_sent then [] else [.messageStart]) ++
       closeBlockEvents s ++
       (if has_reason then [.messageDelta] else []) ++ [.messageStop],
     { message_start_sent := true, current_block_kind := .closed, message_stop_sent := true })

/-- emit_force_stop (mod.rs lines 138-148): ensure termination events are
sent exactly once, falling back to a bare message_stop if emit_finish
produced nothing. -/
def emit_force_stop (s : StreamingState) : List CEvent × StreamingState :=
  if !s.message_stop_sent then
    let r := emit_finish s none
    if r.1.isEmpty then ([.messageStop], { r.2 with message_stop_sent := true })
    else r
  else ([], s)

/-- Fold of PartProcessor over the parts array of one upstream chunk
(mod.rs lines 108-113); parts that fail to deserialise emit nothing. -/
def processParts (s : StreamingState) : List Json → List CEvent × StreamingState
  | [] => ([], s)
  | p :: rest =>
    let step :=
      match partKindOf p with
      | some k => processPart s k
      | none => ([], s)
    let next := processParts step.2 rest
    (step.1 ++ next.1, next.2)

/-- Parts array of an upstream chunk: candidates[0].content.parts as an
array (mod.rs lines 101-107). -/
def partsOf (raw : Json) : Option (List Json) :=
  ((((raw.get (cs "candidates")).bind (Json.getIdx 0)).bind
    (Json.get (cs "content"))).bind (Json.get (cs "parts"))).bind Json.asArr

/-- Finish reason of an upstream chunk: candidates[0].finishReason as a
string (mod.rs lines 117-122). -/
def finishReasonOf (raw : Json) : Option Str :=
  (((raw.get (cs "candidates")).bind (Json.getIdx 0)).bind
    (Json.get (cs "finishReason"))).bind Json.asStr

/-- Stage one of a JSON chunk: message_start when still unsent (mod.rs
lines 96-98). -/
def startStage (s : StreamingState) : List CEvent × StreamingState :=
  if !s.message_start_sent then emit_message_start s else ([], s)

/-- Stage two of a JSON chunk: the part events (mod.rs lines 101-114). -/
def partsStage (raw : Json) (p : List CEvent × StreamingState) :
    List CEvent × StreamingState :=
  match partsOf raw with
  | some ps => (p.1 ++ (processParts p.2 ps).1, (processParts p.2 ps).2)
  | none => p

/-- Stage three of a JSON chunk: the finish events when a finishReason is
present (mod.rs lines 117-128). -/
def finishStage (raw : Json) (p : List CEvent × StreamingState) :
    List CEvent × StreamingState :=
  match finishReasonOf raw with
  | some reason => (p.1 ++ (emit_finish p.2 (some reason)).1, (emit_finish p.2 (some reason)).2)
  | none => p

/-- Event output for one parsed JSON chunk, stages one to three composed. -/
def processJsonChunk (raw : Json) (s : StreamingState) : List CEvent × StreamingState :=
  finishStage raw (partsStage raw (startStage s))

/-- Payload handling of process_sse_line: blank data is skipped, [DONE]
forces the stop events, a parse failure is skipped, and a parsed chunk is
processed after unwrapping the response envelope (mod.rs lines 71-134). -/
def processDataStr (parse : Str → Option Json) (data_str : Str) (s : StreamingState) :
    List CEvent × StreamingState :=
  if data_str.isEmpty then ([], s)
  else if data_str == cs "[DONE]" then emit_force_stop s
  else
    match parse data_str with
    | none => ([], s)
    | some json_value =>
      processJsonChunk ((json_value.get (cs "response")).getD json_value) s

/-- process_sse_line (mod.rs lines 66-135): only data: lines count; the
payload after the prefix is trimmed and handled by processDataStr. -/
def process_sse_line (parse : Str → Option Json) (line : Str) (s : StreamingState) :
    List CEvent × StreamingState :=
  if !startsWithStr (cs "data: ") line then ([], s)
  else processDataStr parse (trimStr (line.drop 6)) s

/-- Longest prefix of the buffer up to a newline, with the remainder; none
when no newline is present (the line stays buffered). -/
def takeLine : Str → Option (Str × Str)
  | [] => none
  | c :: t =>
    if c = '\n' then some ([], t)
    else (takeLine t).map (fun r => (c :: r.1, r.2))

/-- Complete lines of the buffer and the unfinished tail, as the while-let
over buffer positions in mod.rs lines 37-49 extracts them. -/
def splitLinesFuel : Nat → Str → List Str × Str
  | 0, s => ([], s)
  | fuel + 1, s =>
    match takeLine s with
    | none => ([], s)
    | some (line, rest) =>
      let r := splitLinesFuel fuel rest
      (line :: r.1, r.2)

/-- Splitting of a buffer into its complete lines plus the leftover. -/
def splitCompleteLines (s : Str) : List Str × Str :=
  splitLinesFuel s.length s

/-- Per-line loop of mod.rs lines 37-49: trim, skip blanks, translate. -/
def processLines (parse : Str → Option Json) :
    List Str → StreamingState → List CEvent × StreamingState
  | [], s => ([], s)
  | l :: rest, s =>
    let t := trimStr l
    if t.isEmpty then processLines parse rest s
    else
      let step := process_sse_line parse t s
      let next := processLines parse rest step.2
      (step.1 ++ next.1, next.2)

/-- One chunk of the upstream byte stream: data bytes or a transport error. -/
inductive StreamChunk where
  | bytes (data : Str) : StreamChunk
  | errChunk (message : Str) : StreamChunk

/-- Chunk loop of create_claude_sse_stream (mod.rs lines 27-62): buffer the
bytes, translate every complete line, stop at the first transport error,
and always finish with emit_force_stop. -/
def create_claude_sse_stream_go (parse : Str → Option Json) :
    List StreamChunk → Str → StreamingState → List CEvent
  | [], _, s => (emit_force_stop s).1
  | .errChunk _ :: _, _, s => (emit_force_stop s).1
  | .bytes b :: rest, buf, s =>
    let split := splitCompleteLines (buf ++ b)
    let step := processLines parse split.1 s
    step.1 ++ create_claude_sse_stream_go parse rest split.2 step.2

/-- Event sequence of create_claude_sse_stream for a whole upstream stream. -/
def create_claude_sse_stream_events (parse : Str → Option Json)
    (chunks : List StreamChunk) : List CEvent :=
  create_claude_sse_stream_go parse chunks [] StreamingState.init

/-- Transition table of the claimed event grammar message_start
(content_block_start content_block_delta* content_block_stop)*
message_delta? message_stop. -/
def wfStep (q : Nat) (e : CEvent) : Option Nat :=
  match q, e with
  | 0, .messageStart => some 1
  | 1, .blockStart => some 2
  | 2, .blockDelta => some 2
  | 2, .blockStop => some 1
  | 1, .messageDelta => some 3
  | 1, .messageStop => some 4
  | 3, .messageStop => some 4
  | _, _ => none

/-- Run of the grammar automaton from a state. -/
def wfRunFrom (q : Nat) : List CEvent → Option Nat
  | [] => some q
  | e :: rest =>
    match wfStep q e with
    | some q2 => wfRunFrom q2 rest
    | none => none

/-- Acceptance of the claimed event grammar. -/
def claudeStreamWellFormed (evts : List CEvent) : Bool :=
  wfRunFrom 0 evts == some 4

/-- Number of message_stop events in a sequence. -/
def countMessageStop (evts : List CEvent) : Nat :=
  (evts.filter (fun e => e == CEvent.messageStop)).length

/-- Automaton state matching a StreamingState. -/
def dfaOf (s : StreamingState) : Nat :=
  if s.message_stop_sent then 4
  else if !s.message_start_sent then 0
  else if s.current_block_kind == .closed then 1
  else 2

/-- Structural invariant of the streaming state: an open block implies the
message started, and a finished message has no open block. -/
def SInv (s : StreamingState) : Prop :=
  (s.current_block_kind ≠ .closed → s.message_start_sent = true) ∧
  (s.message_stop_sent = true → s.current_block_kind = .closed)

/-- One emission step is sound: the invariant is kept, the automaton moves
from the old to the new matching state, message_stop is emitted exactly on
the stop-flag flip, and both sent-flags are monotone. -/
def StepOk (s : StreamingState) (p : List CEvent × StreamingState) : Prop :=
  SInv p.2 ∧
  wfRunFrom (dfaOf s) p.1 = some (dfaOf p.2) ∧
  countMessageStop p.1 = (if p.2.message_stop_sent && !s.message_stop_sent then 1 else 0) ∧
  (s.message_stop_sent = true → p.2.message_stop_sent = true) ∧
  (s.message_start_sent = true → p.2.message_start_sent = true)

/-- Error body of the C1 counterexample: a 429 with both the
QUOTA_EXHAUSTED token and a parsable retryDelay hint, as Google quota
errors carry them. -/
def quotaHintText : Str :=
  cs "\x7b\"error\":\x7b\"retryInfo\":\x7b\"retryDelay\":\"1s\"\x7d,\"status\":\"RESOURCE_EXHAUSTED\",\"message\":\"QUOTA_EXHAUSTED\"\x7d\x7d"

/-- Parsed JSON of quotaHintText. -/
def quotaHintJson : Json :=
  Json.obj
    [(cs "error", Json.obj
      [(cs "retryInfo", Json.obj [(cs "retryDelay", .str (cs "1s"))]),
       (cs "status", .str (cs "RESOURCE_EXHAUSTED")),
       (cs "message", .str (cs "QUOTA_EXHAUSTED"))])]

/-- Serde oracle of the C1 counterexample: parses exactly quotaHintText. -/
def quotaHintParse : Str → Option Json :=
  fun s => if s = quotaHintText then some quotaHintJson else none

/-! ## Theorems -/

/-- C7: in every protocol handler the per-request attempt budget equals
clamp(pool.len(), 1, 3): the three budgets agree with the clamp, an empty
pool gets budget 1, sizes 1 to 3 get the size itself, and any larger pool
gets 3. -/
theorem C7_attempt_budget_is_clamp :
    (∀ n : Nat,
      openaiMaxAttempts n = clampAttempts n ∧
      claudeMaxAttempts n = clampAttempts n ∧
      geminiMaxAttempts n = clampAttempts n) ∧
    clampAttempts 0 = 1 ∧ clampAttempts 1 = 1 ∧ clampAttempts 2 = 2 ∧
    clampAttempts 3 = 3 ∧ (∀ n : Nat, clampAttempts (n + 4) = 3) := by
  refine ⟨fun n => ?_, by decide, by decide, by decide, by decide, fun n => ?_⟩
  · unfold openaiMaxAttempts claudeMaxAttempts geminiMaxAttempts clampAttempts MAX_RETRY_ATTEMPTS
    omega
  · unfold clampAttempts
    omega

/-- C10: the inbound auth middleware admits every request: it always
forwards — so it never answers 401 — and its decision is independent of all
headers, in particular of the presence or value of the Authorization bearer
token and of x-api-key. -/
theorem C10_auth_middleware_admits_all :
    (∀ headers, auth_middleware headers = .forward) ∧
    (∀ h1 h2, auth_middleware h1 = auth_middleware h2) := by
  refine ⟨fun headers => ?_, fun h1 h2 => ?_⟩
  · simp [auth_middleware]
  · simp [auth_middleware]

/-- C2 fails on the code: the Claude handler returns an upstream 503
directly to the client on the first attempt, with two attempts of the
budget remaining, instead of marking the account and retrying. -/
theorem C2_counterexample_claude_503_returned :
    handle_messages_loop 3 [UpResult.httpErr 503 (cs "overloaded")] =
      (.upstreamReturned 503 (cs "overloaded"), 1) ∧
    claudeMaxAttempts 3 = 3 := by
  exact ⟨rfl, rfl⟩

/-- C2 amended: only the OpenAI handler classifies 500/503/529 as
retryable; it always marks the account rate-limited and continues (with a
sleep when a retryDelay hint parses), except that QUOTA_EXHAUSTED in the
body with no parsable hint makes it return the response as-is.  The Claude
and Gemini handlers return 500/503/529 responses to the client directly. -/
theorem C2_500_503_529_classification (status : Nat) (error_text : Str)
    (parse : Str → Option Json)
    (h : status = 500 ∨ status = 503 ∨ status = 529) :
    claudeClassify status error_text = .returnAsIs ∧
    geminiClassify status error_text = .returnAsIs ∧
    (openaiClassify parse status error_text).1 = true ∧
    ((openaiClassify parse status error_text).2 = .returnAsIs ↔
      (parse_retry_delay parse error_text = none ∧
        containsSub (cs "QUOTA_EXHAUSTED") error_text = true)) := by
  have hcg : claudeClassify status error_text = .returnAsIs ∧
      geminiClassify status error_text = .returnAsIs := by
    rcases h with h | h | h <;> subst h <;> exact ⟨rfl, rfl⟩
  refine ⟨hcg.1, hcg.2, ?_, ?_⟩
  · rcases h with h | h | h <;> subst h <;> rfl
  · have hcond : (status == 429 || status == 529 || status == 503 || status == 500) = true := by
      rcases h with h | h | h <;> subst h <;> rfl
    unfold openaiClassify
    rw [hcond]
    simp only [if_true]
    cases hp : parse_retry_delay parse error_text with
    | some d =>
      simp only []
      constructor
      · intro hx
        cases hx
      · rintro ⟨h1, _⟩
        cases h1
    | none =>
      cases hq : containsSub (cs "QUOTA_EXHAUSTED") error_text with
      | true => simp [hq]
      | false => simp [hq]

/-- C2 amended witness at status 503 with body overloaded and a parse
oracle returning nothing. -/
theorem C2_500_503_529_classification_witness :
    claudeClassify 503 (cs "overloaded") = .returnAsIs ∧
    geminiClassify 503 (cs "overloaded") = .returnAsIs ∧
    (openaiClassify (fun _ => none) 503 (cs "overloaded")).1 = true ∧
    ((openaiClassify (fun _ => none) 503 (cs "overloaded")).2 = .returnAsIs ↔
      (parse_retry_delay (fun _ => none) (cs "overloaded") = none ∧
        containsSub (cs "QUOTA_EXHAUSTED") (cs "overloaded") = true)) :=
  C2_500_503_529_classification 503 (cs "overloaded") (fun _ => none) (Or.inr (Or.inl rfl))

/-- Positivity of the three attempt budgets, as a successor shape. -/
theorem maxAttempts_succ (pool_size : Nat) :
    ∃ m, max (min MAX_RETRY_ATTEMPTS pool_size) 1 = m + 1 := by
  refine ⟨max (min MAX_RETRY_ATTEMPTS pool_size) 1 - 1, ?_⟩
  unfold MAX_RETRY_ATTEMPTS
  omega

/-- C1 fails on the code: in the OpenAI handler a 429 whose body carries
both QUOTA_EXHAUSTED and a parsable retryDelay hint is classified as
sleep-and-retry, and the loop goes on to a second attempt instead of
returning the upstream response. -/
theorem C1_counterexample_openai_hint_beats_quota :
    containsSub (cs "QUOTA_EXHAUSTED") quotaHintText = true ∧
    (openaiClassify quotaHintParse 429 quotaHintText).2 = .retrySleep 1200 ∧
    handle_chat_completions_loop quotaHintParse 3
        [UpResult.httpErr 429 quotaHintText, UpResult.success] =
      (.clientSuccess, 2) := by
  refine ⟨by decide, by decide, rfl⟩

/-- C1 amended: the Claude and Gemini handlers return a 429 with
QUOTA_EXHAUSTED in the body as-is after the first attempt, never contacting
further accounts; the OpenAI handler does so only when no retryDelay hint
parses from the body. -/
theorem C1_quota_exhausted_short_circuit (error_text : Str) (pool_size : Nat)
    (rest : List UpResult) (parse : Str → Option Json)
    (hq : containsSub (cs "QUOTA_EXHAUSTED") error_text = true) :
    claudeClassify 429 error_text = .returnAsIs ∧
    geminiClassify 429 error_text = .returnAsIs ∧
    handle_messages_loop pool_size (.httpErr 429 error_text :: rest) =
      (.upstreamReturned 429 error_text, 1) ∧
    handle_generate_loop pool_size (.httpErr 429 error_text :: rest) =
      (.upstreamReturned 429 error_text, 1) ∧
    (parse_retry_delay parse error_text = none →
      (openaiClassify parse 429 error_text).2 = .returnAsIs) ∧
    (parse_retry_delay parse error_text = none →
      handle_chat_completions_loop parse pool_size (.httpErr 429 error_text :: rest) =
        (.upstreamReturned 429 error_text, 1)) := by
  have hcl : claudeClassify 429 error_text = .returnAsIs := by
    unfold claudeClassify
    simp [hq]
  have hge : geminiClassify 429 error_text = .returnAsIs := by
    unfold geminiClassify
    simp [hq]
  obtain ⟨m, hm⟩ := maxAttempts_succ pool_size
  refine ⟨hcl, hge, ?_, ?_, ?_, ?_⟩
  · unfold handle_messages_loop claudeMaxAttempts
    rw [hm]
    simp [claudeLoopGo, hcl]
  · unfold handle_generate_loop geminiMaxAttempts
    rw [hm]
    simp [geminiLoopGo, hge]
  · intro hp
    unfold openaiClassify
    simp [hp, hq]
  · intro hp
    have hoc : (openaiClassify parse 429 error_text).2 = .returnAsIs := by
      unfold openaiClassify
      simp [hp, hq]
    unfold handle_chat_completions_loop openaiMaxAttempts
    rw [hm]
    simp [openaiLoopGo, hoc]

/-- C1 amended witness: pool of 3, first upstream answer a 429 with
QUOTA_EXHAUSTED and no parsable hint; all three handlers stop after one
attempt and hand the 429 body through. -/
theorem C1_quota_exhausted_short_circuit_witness :
    handle_messages_loop 3 [.httpErr 429 (cs "429 QUOTA_EXHAUSTED"), .success] =
      (.upstreamReturned 429 (cs "429 QUOTA_EXHAUSTED"), 1) ∧
    handle_generate_loop 3 [.httpErr 429 (cs "429 QUOTA_EXHAUSTED"), .success] =
      (.upstreamReturned 429 (cs "429 QUOTA_EXHAUSTED"), 1) ∧
    handle_chat_completions_loop (fun _ => none) 3
        [.httpErr 429 (cs "429 QUOTA_EXHAUSTED"), .success] =
      (.upstreamReturned 429 (cs "429 QUOTA_EXHAUSTED"), 1) := by
  have h := C1_quota_exhausted_short_circuit (cs "429 QUOTA_EXHAUSTED") 3
    [UpResult.success] (fun _ => none) (by decide)
  exact ⟨h.2.2.1, h.2.2.2.1, h.2.2.2.2.2 rfl⟩

/-- Exhaustion shape of the Claude loop: an all-attempts-failed outcome is
always a 429 whose JSON message reads All N attempts failed with the last
recorded error appended. -/
theorem claudeLoopGo_exhausted (total : Nat) :
    ∀ (fuel : Nat) (rs : List UpResult) (le : Str) (st : Nat) (b : Json) (n : Nat),
      claudeLoopGo total fuel rs le = (.allAttemptsFailed st b, n) →
      st = 429 ∧ ∃ e, b = claudeExhaustedBody total e := by
  intro fuel
  induction fuel with
  | zero =>
    intro rs le st b n h
    simp only [claudeLoopGo, Prod.mk.injEq, HandlerOutcome.allAttemptsFailed.injEq] at h
    exact ⟨h.1.1.symm, le, h.1.2.symm⟩
  | succ m ih =>
    intro rs le st b n h
    cases rs with
    | nil =>
      simp only [claudeLoopGo, Prod.mk.injEq, HandlerOutcome.allAttemptsFailed.injEq] at h
      exact ⟨h.1.1.symm, le, h.1.2.symm⟩
    | cons r rest =>
      cases r with
      | netErr e =>
        simp only [claudeLoopGo, Prod.mk.injEq] at h
        exact ih rest e st b _ (Prod.ext h.1 rfl)
      | success =>
        simp only [claudeLoopGo, Prod.mk.injEq] at h
        exact absurd h.1 (by intro hx; cases hx)
      | httpErr s2 t2 =>
        cases hcl : claudeClassify s2 t2 with
        | returnAsIs =>
          simp only [claudeLoopGo, hcl, Prod.mk.injEq] at h
          exact absurd h.1 (by intro hx; cases hx)
        | retryRotate =>
          simp only [claudeLoopGo, hcl, Prod.mk.injEq] at h
          exact ih rest _ st b _ (Prod.ext h.1 rfl)
        | retrySleep d =>
          simp only [claudeLoopGo, hcl, Prod.mk.injEq] at h
          exact ih rest _ st b _ (Prod.ext h.1 rfl)

/-- Exhaustion shape of the Gemini loop: always a 429 with the plain-text
All accounts exhausted body. -/
theorem geminiLoopGo_exhausted (total : Nat) :
    ∀ (fuel : Nat) (rs : List UpResult) (le : Str) (st : Nat) (b : Json) (n : Nat),
      geminiLoopGo total fuel rs le = (.allAttemptsFailed st b, n) →
      st = 429 ∧ ∃ e, b = .str (accountsExhaustedMessage e) := by
  intro fuel
  induction fuel with
  | zero =>
    intro rs le st b n h
    simp only [geminiLoopGo, Prod.mk.injEq, HandlerOutcome.allAttemptsFailed.injEq] at h
    exact ⟨h.1.1.symm, le, h.1.2.symm⟩
  | succ m ih =>
    intro rs le st b n h
    cases rs with
    | nil =>
      simp only [geminiLoopGo, Prod.mk.injEq, HandlerOutcome.allAttemptsFailed.injEq] at h
      exact ⟨h.1.1.symm, le, h.1.2.symm⟩
    | cons r rest =>
      cases r with
      | netErr e =>
        simp only [geminiLoopGo, Prod.mk.injEq] at h
        exact ih rest e st b _ (Prod.ext h.1 rfl)
      | success =>
        simp only [geminiLoopGo, Prod.mk.injEq] at h
        exact absurd h.1 (by intro hx; cases hx)
      | httpErr s2 t2 =>
        cases hcl : geminiClassify s2 t2 with
        | returnAsIs =>
          simp only [geminiLoopGo, hcl, Prod.mk.injEq] at h
          exact absurd h.1 (by intro hx; cases hx)
        | retryRotate =>
          simp only [geminiLoopGo, hcl, Prod.mk.injEq] at h
          exact ih rest _ st b _ (Prod.ext h.1 rfl)
        | retrySleep d =>
          simp only [geminiLoopGo, hcl, Prod.mk.injEq] at h
          exact ih rest _ st b _ (Prod.ext h.1 rfl)

/-- Exhaustion shape of the OpenAI loop: always a 429 with the plain-text
All accounts exhausted body. -/
theorem openaiLoopGo_exhausted (parse : Str → Option Json) (total : Nat) :
    ∀ (fuel : Nat) (rs : List UpResult) (le : Str) (st : Nat) (b : Json) (n : Nat),
      openaiLoopGo parse total fuel rs le = (.allAttemptsFailed st b, n) →
      st = 429 ∧ ∃ e, b = .str (accountsExhaustedMessage e) := by
  intro fuel
  induction fuel with
  | zero =>
    intro rs le st b n h
    simp only [openaiLoopGo, Prod.mk.injEq, HandlerOutcome.allAttemptsFailed.injEq] at h
    exact ⟨h.1.1.symm, le, h.1.2.symm⟩
  | succ m ih =>
    intro rs le st b n h
    cases rs with
    | nil =>
      simp only [openaiLoopGo, Prod.mk.injEq, HandlerOutcome.allAttemptsFailed.injEq] at h
      exact ⟨h.1.1.symm, le, h.1.2.symm⟩
    | cons r rest =>
      cases r with
      | netErr e =>
        simp only [openaiLoopGo, Prod.mk.injEq] at h
        exact ih rest e st b _ (Prod.ext h.1 rfl)
      | success =>
        simp only [openaiLoopGo, Prod.mk.injEq] at h
        exact absurd h.1 (by intro hx; cases hx)
      | httpErr s2 t2 =>
        cases hcl : (openaiClassify parse s2 t2).2 with
        | returnAsIs =>
          simp only [openaiLoopGo, hcl, Prod.mk.injEq] at h
          exact absurd h.1 (by intro hx; cases hx)
        | retryRotate =>
          simp only [openaiLoopGo, hcl, Prod.mk.injEq] at h
          exact ih rest _ st b _ (Prod.ext h.1 rfl)
        | retrySleep d =>
          simp only [openaiLoopGo, hcl, Prod.mk.injEq] at h
          exact ih rest _ st b _ (Prod.ext h.1 rfl)

/-- C6 fails on the code: the Gemini handler answers exhaustion with the
body All accounts exhausted, not All N attempts failed. -/
theorem C6_counterexample_gemini_body_text :
    handle_generate_loop 1 [.httpErr 429 (cs "x")] =
      (.allAttemptsFailed 429 (.str (cs "All accounts exhausted. Last error: HTTP 429: x")), 1) ∧
    (cs "All accounts exhausted. Last error: HTTP 429: x" ==
      cs "All 1 attempts failed. Last error: HTTP 429: x") = false := by
  exact ⟨rfl, by decide⟩

/-- C6 amended: when every attempt fails, each handler responds 429; the
Claude handler's JSON error message reads All N attempts failed. Last
error followed by the last recorded error, while the OpenAI and Gemini
handlers answer with the plain text All accounts exhausted. Last error. -/
theorem C6_exhaustion_status_and_body :
    (∀ (total fuel : Nat) (rs : List UpResult) (le : Str) (st : Nat) (b : Json) (n : Nat),
      claudeLoopGo total fuel rs le = (.allAttemptsFailed st b, n) →
      st = 429 ∧ ∃ e, b = claudeExhaustedBody total e) ∧
    (∀ (total fuel : Nat) (rs : List UpResult) (le : Str) (st : Nat) (b : Json) (n : Nat),
      geminiLoopGo total fuel rs le = (.allAttemptsFailed st b, n) →
      st = 429 ∧ ∃ e, b = .str (accountsExhaustedMessage e)) ∧
    (∀ (parse : Str → Option Json) (total fuel : Nat) (rs : List UpResult) (le : Str)
      (st : Nat) (b : Json) (n : Nat),
      openaiLoopGo parse total fuel rs le = (.allAttemptsFailed st b, n) →
      st = 429 ∧ ∃ e, b = .str (accountsExhaustedMessage e)) :=
  ⟨fun total fuel => claudeLoopGo_exhausted total fuel,
   fun total fuel => geminiLoopGo_exhausted total fuel,
   fun parse total fuel => openaiLoopGo_exhausted parse total fuel⟩

/-- C6 amended witness: concrete exhausted runs of the three loops. -/
theorem C6_exhaustion_status_and_body_witness :
    (429 = 429 ∧ ∃ e, claudeExhaustedBody 2 (cs "boom") = claudeExhaustedBody 2 e) ∧
    (429 = 429 ∧ ∃ e,
      Json.str (accountsExhaustedMessage (numericLastError 429 (cs "x"))) =
        Json.str (accountsExhaustedMessage e)) ∧
    (429 = 429 ∧ ∃ e,
      Json.str (accountsExhaustedMessage (numericLastError 500 (cs "boom"))) =
        Json.str (accountsExhaustedMessage e)) := by
  refine ⟨?_, ?_, ?_⟩
  · exact C6_exhaustion_status_and_body.1 2 2
      [.httpErr 401 (cs "x"), .netErr (cs "boom")] (cs "") 429
      (claudeExhaustedBody 2 (cs "boom")) 2 rfl
  · exact C6_exhaustion_status_and_body.2.1 1 1 [.httpErr 429 (cs "x")] (cs "") 429
      (.str (accountsExhaustedMessage (numericLastError 429 (cs "x")))) 1 rfl
  · exact C6_exhaustion_status_and_body.2.2 (fun _ => none) 1 1
      [.httpErr 500 (cs "boom")] (cs "") 429
      (.str (accountsExhaustedMessage (numericLastError 500 (cs "boom")))) 1 rfl

/-- Aspect chain agreement: the extra -1x1 branch of the code coincides
with the default. -/
theorem specAspectRatio_eq (om : Str) : specAspectRatio om = aspectRatioOf om := by
  unfold specAspectRatio aspectRatioOf
  split_ifs <;> rfl

/-- Image-branch agreement: parse_image_config yields the claimed aspect
table, 4K flag and the fixed base model. -/
theorem parse_image_config_eq_spec (om : Str) :
    parse_image_config om = (specImageConfig om, cs "gemini-3-pro-image") := by
  unfold parse_image_config specImageConfig
  rw [specAspectRatio_eq]

/-- C4: resolve_request_config implements the four-step decision tree of
the claim (image generation first, then the -online suffix, then the
high-quality allowlist, else agent), and the concrete example
gemini-3-pro-image-16x9-4k resolves to aspectRatio 16:9 with imageSize 4K
and final model gemini-3-pro-image. -/
theorem C4_resolve_request_config_decision_tree :
    (∀ original_model mapped_model,
      resolve_request_config original_model mapped_model =
        resolve_request_config_spec original_model mapped_model) ∧
    resolve_request_config (cs "gemini-3-pro-image-16x9-4k") (cs "gemini-3-pro-image-16x9-4k") =
      { request_type := cs "image_gen"
        inject_google_search := false
        final_model := cs "gemini-3-pro-image"
        image_config := some (Json.obj
          [(cs "aspectRatio", .str (cs "16:9")), (cs "imageSize", .str (cs "4K"))]) } := by
  refine ⟨fun om mm => ?_, rfl⟩
  have hqs : ∀ m, specHighQuality m = is_high_quality_model m := fun _ => rfl
  unfold resolve_request_config resolve_request_config_spec
  by_cases h1 : startsWithStr (cs "gemini-3-pro-image") mm = true
  · simp [h1, parse_image_config_eq_spec]
  · rw [if_neg h1, if_neg h1]
    cases h2 : endsWithStr (cs "-online") om <;>
      cases hq : is_high_quality_model mm <;>
        simp [h2, hq, hqs]

/-- A list is a prefix of itself followed by anything. -/
theorem isPrefixOf_append_self (l u : List Char) : l.isPrefixOf (l ++ u) = true := by
  induction l with
  | nil => simp [List.isPrefixOf]
  | cons c t ih => simp [List.isPrefixOf, ih]

/-- C5 fails on the code: the image-edit envelope carries a requestId
prefixed img-edit-, which does not match the claimed agent- pattern. -/
theorem C5_counterexample_img_edit_prefix :
    (images_edits_body (cs "proj") (cs "123e4567-e89b-12d3-a456-426614174000")
        (cs "gemini-3-pro-image") []).get (cs "requestId") =
      some (.str (cs "img-edit-" ++ cs "123e4567-e89b-12d3-a456-426614174000")) ∧
    agentRequestIdMatches (cs "img-edit-" ++ cs "123e4567-e89b-12d3-a456-426614174000") = false := by
  exact ⟨rfl, by decide⟩

/-- C5 amended: the chat envelope of the Claude mapper and the
image-generation bodies carry a fresh agent- prefixed UUID requestId that
matches the claimed pattern, while the image-edit body carries an
img-edit- prefixed requestId that does not. -/
theorem C5_request_id_prefixes (project_id uuid final_model request_type : Str)
    (inner_request : Json) (metadata_user_id : Option Str)
    (final_prompt aspect_ratio edit_model : Str) (contents_parts : List Json)
    (hu : uuidShape uuid) :
    (transform_claude_request_in_body project_id uuid inner_request final_model
        request_type metadata_user_id).get (cs "requestId") =
      some (.str (cs "agent-" ++ uuid)) ∧
    (images_generations_body project_id uuid final_prompt aspect_ratio).get (cs "requestId") =
      some (.str (cs "agent-" ++ uuid)) ∧
    agentRequestIdMatches (cs "agent-" ++ uuid) = true ∧
    (images_edits_body project_id uuid edit_model contents_parts).get (cs "requestId") =
      some (.str (cs "img-edit-" ++ uuid)) ∧
    agentRequestIdMatches (cs "img-edit-" ++ uuid) = false := by
  obtain ⟨hlen, hall⟩ := hu
  refine ⟨?_, rfl, ?_, rfl, ?_⟩
  · cases metadata_user_id with
    | none => rfl
    | some uid => rfl
  · unfold agentRequestIdMatches startsWithStr
    have hdrop : (cs "agent-" ++ uuid).drop 6 = uuid := by
      have h6 : (cs "agent-").length = 6 := rfl
      rw [← h6, List.drop_left]
    rw [hdrop, isPrefixOf_append_self, hlen, hall]
    rfl
  · rfl

/-- C5 amended witness at a concrete UUID rendering. -/
theorem C5_request_id_prefixes_witness :
    (transform_claude_request_in_body (cs "proj") (cs "123e4567-e89b-12d3-a456-426614174000")
        (Json.obj []) (cs "gemini-3-flash") (cs "agent") none).get (cs "requestId") =
      some (.str (cs "agent-" ++ cs "123e4567-e89b-12d3-a456-426614174000")) ∧
    (images_generations_body (cs "proj") (cs "123e4567-e89b-12d3-a456-426614174000")
        (cs "a cat") (cs "1:1")).get (cs "requestId") =
      some (.str (cs "agent-" ++ cs "123e4567-e89b-12d3-a456-426614174000")) ∧
    agentRequestIdMatches (cs "agent-" ++ cs "123e4567-e89b-12d3-a456-426614174000") = true ∧
    (images_edits_body (cs "proj") (cs "123e4567-e89b-12d3-a456-426614174000")
        (cs "gemini-3-pro-image") []).get (cs "requestId") =
      some (.str (cs "img-edit-" ++ cs "123e4567-e89b-12d3-a456-426614174000")) ∧
    agentRequestIdMatches (cs "img-edit-" ++ cs "123e4567-e89b-12d3-a456-426614174000") = false :=
  C5_request_id_prefixes (cs "proj") (cs "123e4567-e89b-12d3-a456-426614174000")
    (cs "gemini-3-flash") (cs "agent") (Json.obj []) none (cs "a cat") (cs "1:1")
    (cs "gemini-3-pro-image") [] ⟨by decide, by decide⟩

/-- A pattern is a suffix of anything it is appended to. -/
theorem endsWithStr_append_self (p t : Str) : endsWithStr p (t ++ p) = true := by
  unfold endsWithStr
  show (p.reverse.isPrefixOf (t ++ p).reverse) = true
  rw [List.reverse_append]
  exact isPrefixOf_append_self p.reverse t.reverse

/-- The repeat-dropper is the identity when the pattern is not a prefix. -/
theorem dropPrefixRepeat_stop (f : Nat) (p s : Str)
    (h : (!p.isEmpty && p.isPrefixOf s) = false) : dropPrefixRepeat f p s = s := by
  cases f with
  | zero => rfl
  | succ k => simp [dropPrefixRepeat, h]

/-- The repeat-dropper does not depend on the fuel once it covers the input
length. -/
theorem dropPrefixRepeat_congr (p : Str) (hp : p ≠ []) :
    ∀ (f1 f2 : Nat) (s : Str), s.length ≤ f1 → s.length ≤ f2 →
      dropPrefixRepeat f1 p s = dropPrefixRepeat f2 p s := by
  intro f1
  induction f1 with
  | zero =>
    intro f2 s h1 h2
    have hs : s = [] := List.length_eq_zero.mp (Nat.le_zero.mp h1)
    subst hs
    have hcond : (!p.isEmpty && p.isPrefixOf ([] : Str)) = false := by
      cases p with
      | nil => exact absurd rfl hp
      | cons c t => simp [List.isPrefixOf]
    rw [dropPrefixRepeat_stop 0 p [] hcond, dropPrefixRepeat_stop f2 p [] hcond]
  | succ k ih =>
    intro f2 s h1 h2
    cases hcond : (!p.isEmpty && p.isPrefixOf s) with
    | false =>
      rw [dropPrefixRepeat_stop _ _ _ hcond, dropPrefixRepeat_stop _ _ _ hcond]
    | true =>
      have hpre : p.isPrefixOf s = true := ((Bool.and_eq_true _ _).mp hcond).2
      have hplen : 1 ≤ p.length := by
        cases p with
        | nil => exact absurd rfl hp
        | cons c t => simp
      have hslen : p.length ≤ s.length := (List.isPrefixOf_iff_prefix.mp hpre).length_le
      obtain ⟨f2k, rfl⟩ : ∃ m, f2 = m + 1 := ⟨f2 - 1, by omega⟩
      show dropPrefixRepeat (k + 1) p s = dropPrefixRepeat (f2k + 1) p s
      simp only [dropPrefixRepeat, hcond, if_true]
      exact ih f2k (s.drop p.length)
        (by rw [List.length_drop]; omega) (by rw [List.length_drop]; omega)

/-- trim_end_matches is the identity when the pattern is not a suffix. -/
theorem trimEnd_not_suffix (p s : Str) (h : p.isSuffixOf s = false) :
    trimEndMatchesStr p s = s := by
  unfold trimEndMatchesStr
  have hpf : p.reverse.isPrefixOf s.reverse = false := h
  rw [dropPrefixRepeat_stop _ _ _ (by simp [hpf]), List.reverse_reverse]

/-- trim_end_matches strips one trailing copy of the pattern. -/
theorem trimEnd_append_self (p t : Str) (hp : p ≠ []) :
    trimEndMatchesStr p (t ++ p) = trimEndMatchesStr p t := by
  unfold trimEndMatchesStr
  have hplen : 1 ≤ p.length := by
    cases p with
    | nil => exact absurd rfl hp
    | cons c r => simp
  have hrevne : p.reverse.isEmpty = false := by
    cases hq : p.reverse with
    | nil => exact absurd (by simpa using congrArg List.reverse hq) hp
    | cons c r => rfl
  obtain ⟨m, hm⟩ : ∃ m, (t ++ p).length = m + 1 :=
    ⟨(t ++ p).length - 1, by rw [List.length_append]; omega⟩
  rw [hm, List.reverse_append]
  show (dropPrefixRepeat (m + 1) p.reverse (p.reverse ++ t.reverse)).reverse = _
  have hcond : (!p.reverse.isEmpty && p.reverse.isPrefixOf (p.reverse ++ t.reverse)) = true := by
    rw [hrevne, isPrefixOf_append_self]
    rfl
  simp only [dropPrefixRepeat, hcond, if_true]
  rw [List.drop_left]
  have hfuel : t.reverse.length ≤ m := by
    have := congrArg (fun x => x) hm
    rw [List.length_append] at hm
    rw [List.length_reverse]
    omega
  rw [dropPrefixRepeat_congr p.reverse (by simpa using hp) m t.length t.reverse hfuel
    (by rw [List.length_reverse])]

/-- Facts carried by a successful digit-run parse. -/
theorem parseDigits_some (s : Str) (n : Nat) (h : parseDigits s = some n) :
    s ≠ [] ∧ s.all Char.isDigit = true ∧ digitsVal s = n := by
  unfold parseDigits at h
  by_cases hc : (s.isEmpty || !s.all Char.isDigit) = true
  · rw [if_pos hc] at h
    cases h
  · rw [if_neg hc] at h
    simp only [Bool.or_eq_true, Bool.not_eq_true'] at hc
    push_neg at hc
    refine ⟨?_, ?_, by injection h⟩
    · intro hs
      subst hs
      exact hc.1 rfl
    · have := hc.2
      simpa using this

/-- The last character of a parsed digit run is a digit. -/
theorem parseDigits_getLast (s : Str) (n : Nat) (h : parseDigits s = some n) :
    ∃ c, s.getLast? = some c ∧ c.isDigit = true := by
  obtain ⟨hne, hall, _⟩ := parseDigits_some s n h
  exact ⟨s.getLast hne, List.getLast?_eq_getLast s hne,
    List.all_eq_true.mp hall _ (List.getLast_mem hne)⟩

/-- The empty string is not a decimal literal. -/
theorem parseF64Body_nil : parseF64Body [] = none := rfl

/-- The last character of an unsigned decimal literal is a digit or the
dot. -/
theorem parseF64Body_getLast (body : Str) (mn : Nat × Nat)
    (h : parseF64Body body = some mn) :
    ∃ c, body.getLast? = some c ∧ (c.isDigit = true ∨ c = '.') := by
  unfold parseF64Body at h
  obtain ⟨t, ht⟩ : body.takeWhile Char.isDigit <+: body := List.takeWhile_prefix _
  have hdrop : body.drop (body.takeWhile Char.isDigit).length = t := by
    have h3 := List.drop_left (body.takeWhile Char.isDigit) t
    rw [ht] at h3
    exact h3
  rw [hdrop] at h
  cases t with
  | nil =>
    simp only [] at h
    cases hpd : parseDigits (body.takeWhile Char.isDigit) with
    | none => rw [hpd] at h; cases h
    | some n =>
      obtain ⟨c, hc, hd⟩ := parseDigits_getLast _ _ hpd
      have hb : body.takeWhile Char.isDigit = body := by simpa using ht
      exact ⟨c, by rw [← hb]; exact hc, Or.inl hd⟩
  | cons c2 frac =>
    simp only [] at h
    by_cases hdot : c2 = '.'
    · rw [if_pos hdot] at h
      by_cases hg : (frac.all Char.isDigit &&
          !((body.takeWhile Char.isDigit).isEmpty && frac.isEmpty)) = true
      · have hfall : frac.all Char.isDigit = true := ((Bool.and_eq_true _ _).mp hg).1
        subst hdot
        cases hfrac : frac with
        | nil =>
          refine ⟨'.', ?_, Or.inr rfl⟩
          subst hfrac
          rw [← ht, List.getLast?_append_of_ne_nil _ (by simp)]
          rfl
        | cons f fs =>
          have hfne : frac ≠ [] := by rw [hfrac]; simp
          have hlast : body.getLast? = frac.getLast? := by
            rw [← ht, List.getLast?_append_of_ne_nil _ (by simp)]
            cases frac with
            | nil => exact absurd rfl hfne
            | cons a b => exact List.getLast?_cons_cons ..
          refine ⟨frac.getLast hfne, ?_, Or.inl ?_⟩
          · rw [hlast]
            exact List.getLast?_eq_getLast frac hfne
          · exact List.all_eq_true.mp hfall _ (List.getLast_mem hfne)
      · rw [if_neg hg] at h
        cases h
    · rw [if_neg hdot] at h
      cases h

/-- The last character of a signed decimal literal is a digit or the dot. -/
theorem parseF64Dec_getLast (s : Str) (d : Bool × Nat × Nat)
    (h : parseF64Dec s = some d) :
    ∃ c, s.getLast? = some c ∧ (c.isDigit = true ∨ c = '.') := by
  cases s with
  | nil => cases h
  | cons c rest =>
    have hbody : ∀ mn, parseF64Body rest = some mn → rest ≠ [] := by
      intro mn hmn hr
      subst hr
      rw [parseF64Body_nil] at hmn
      cases hmn
    have htail : ∀ mn, parseF64Body rest = some mn →
        ∃ c2, (c :: rest).getLast? = some c2 ∧ (c2.isDigit = true ∨ c2 = '.') := by
      intro mn hmn
      obtain ⟨c2, hc2, hd2⟩ := parseF64Body_getLast rest mn hmn
      have hr := hbody mn hmn
      refine ⟨c2, ?_, hd2⟩
      cases rest with
      | nil => exact absurd rfl hr
      | cons a b => rw [List.getLast?_cons_cons]; exact hc2
    unfold parseF64Dec at h
    simp only [] at h
    by_cases h1 : c = '-'
    · rw [if_pos h1] at h
      cases hb : parseF64Body rest with
      | none => rw [hb] at h; cases h
      | some mn => exact htail mn hb
    · rw [if_neg h1] at h
      by_cases h2 : c = '+'
      · rw [if_pos h2] at h
        cases hb : parseF64Body rest with
        | none => rw [hb] at h; cases h
        | some mn => exact htail mn hb
      · rw [if_neg h2] at h
        cases hb : parseF64Body (c :: rest) with
        | none => rw [hb] at h; cases h
        | some mn => exact parseF64Body_getLast _ mn hb

/-- A trailing ms implies a trailing s. -/
theorem endsWith_ms_imp_s (s : Str) (h : endsWithStr (cs "ms") s = true) :
    endsWithStr (cs "s") s = true := by
  obtain ⟨u, hu⟩ := List.isSuffixOf_iff_suffix.mp h
  apply List.isSuffixOf_iff_suffix.mpr
  exact ⟨u ++ ['m'], by rw [List.append_assoc]; exact hu⟩

/-- A string ending in ms has last character s. -/
theorem endsWith_ms_getLast (s : Str) (h : endsWithStr (cs "ms") s = true) :
    s.getLast? = some 's' := by
  obtain ⟨u, hu⟩ := List.isSuffixOf_iff_suffix.mp h
  rw [← hu, List.getLast?_append_of_ne_nil _ (by decide)]
  rfl

/-- A singleton suffix pins down the last character. -/
theorem singleton_suffix_getLast (a : Char) (s : Str)
    (h : endsWithStr [a] s = true) : s.getLast? = some a := by
  obtain ⟨u, hu⟩ := List.isSuffixOf_iff_suffix.mp h
  rw [← hu, List.getLast?_append_of_ne_nil _ (by simp)]
  rfl

/-- Strings not ending in s are rejected by the duration parser. -/
theorem parse_duration_ms_rejects_non_s (s : Str)
    (h : endsWithStr (cs "s") s = false) : parse_duration_ms s = none := by
  have hms : endsWithStr (cs "ms") s = false := by
    cases h2 : endsWithStr (cs "ms") s with
    | false => rfl
    | true => rw [endsWith_ms_imp_s s h2] at h; cases h
  unfold parse_duration_ms
  rw [hms, h]
  rfl

/-- Digit-run plus ms parses to the run value. -/
theorem parse_duration_ms_int_ms (t : Str) (n : Nat)
    (hpd : parseDigits t = some n) (hlt : n < 2 ^ 64) :
    parse_duration_ms (t ++ cs "ms") = some n := by
  obtain ⟨hne, hall, hval⟩ := parseDigits_some t n hpd
  have hends : endsWithStr (cs "ms") (t ++ cs "ms") = true := endsWithStr_append_self _ _
  have hnosuf : (cs "ms").isSuffixOf t = false := by
    cases hs2 : (cs "ms").isSuffixOf t with
    | false => rfl
    | true =>
      exfalso
      have hmem : 's' ∈ t := by
        obtain ⟨u, hu⟩ := List.isSuffixOf_iff_suffix.mp hs2
        rw [← hu]
        exact List.mem_append_right u (by decide)
      have := List.all_eq_true.mp hall _ hmem
      simp at this
  have htrim : trimEndMatchesStr (cs "ms") (t ++ cs "ms") = t := by
    rw [trimEnd_append_self _ _ (by decide), trimEnd_not_suffix _ _ hnosuf]
  have hhead : ¬ (t.head? = some '+') := by
    cases t with
    | nil => exact absurd rfl hne
    | cons c r =>
      have hc : c.isDigit = true := List.all_eq_true.mp hall c (by simp)
      simp only [List.head?_cons, Option.some.injEq]
      intro hcp
      rw [hcp] at hc
      simp at hc
  have hu64 : parseU64 t = some n := by
    simp only [parseU64, if_neg hhead]
    rw [hpd]
    simp only []
    rw [if_pos hlt]
  simp [parse_duration_ms, hends, htrim, hu64]

/-- Signed decimal plus s parses to the truncated value times 1000. -/
theorem parse_duration_ms_float_s (t : Str) (d : Bool × Nat × Nat)
    (hp : parseF64Dec t = some d) :
    parse_duration_ms (t ++ cs "s") = some (timesThousandAsU64 d) := by
  obtain ⟨c, hclast, hcd⟩ := parseF64Dec_getLast t d hp
  have hcm : c ≠ 'm' := by
    rcases hcd with hd | hd
    · intro heq
      rw [heq] at hd
      exact absurd hd (by decide)
    · intro heq
      rw [heq] at hd
      exact absurd hd (by decide)
  have hcs : c ≠ 's' := by
    rcases hcd with hd | hd
    · intro heq
      rw [heq] at hd
      exact absurd hd (by decide)
    · intro heq
      rw [heq] at hd
      exact absurd hd (by decide)
  have hms : endsWithStr (cs "ms") (t ++ cs "s") = false := by
    cases h2 : endsWithStr (cs "ms") (t ++ cs "s") with
    | false => rfl
    | true =>
      exfalso
      obtain ⟨u, hu⟩ := List.isSuffixOf_iff_suffix.mp h2
      have hu2 : (u ++ ['m']) ++ cs "s" = t ++ cs "s" := by
        rw [List.append_assoc]
        exact hu
      have hum : u ++ ['m'] = t := List.append_cancel_right hu2
      have hlm : t.getLast? = some 'm' := by
        rw [← hum, List.getLast?_append_of_ne_nil _ (by simp)]
        rfl
      rw [hclast] at hlm
      injection hlm with h3
      exact hcm h3
  have hs : endsWithStr (cs "s") (t ++ cs "s") = true := endsWithStr_append_self _ _
  have hnosuf : (cs "s").isSuffixOf t = false := by
    cases h2 : (cs "s").isSuffixOf t with
    | false => rfl
    | true =>
      have hl := singleton_suffix_getLast 's' t h2
      rw [hclast] at hl
      injection hl with h3
      exact absurd h3 hcs
  have htrim : trimEndMatchesChar 's' (t ++ cs "s") = t := by
    show trimEndMatchesStr (cs "s") (t ++ cs "s") = t
    rw [trimEnd_append_self _ _ (by decide), trimEnd_not_suffix _ _ hnosuf]
  simp [parse_duration_ms, hms, hs, htrim, hp]

/-- The retryInfo.retryDelay hint takes priority, and its parse is final. -/
theorem parse_retry_delay_json_priority (j : Json) (ds : Str)
    (h : retryDelayHintStr j = some ds) :
    parse_retry_delay_json j = parse_duration_ms ds := by
  unfold retryDelayHintStr at h
  unfold parse_retry_delay_json
  cases h1 : (j.get (cs "error")).bind (Json.get (cs "retryInfo")) with
  | none => rw [h1] at h; cases h
  | some retry_info =>
    rw [h1] at h
    have h2 : (retry_info.get (cs "retryDelay")).bind Json.asStr = some ds := h
    simp only []
    rw [h2]

/-- Without a string retryDelay hint, quotaResetDelay is consulted. -/
theorem parse_retry_delay_json_fallback (j : Json)
    (h : retryDelayHintStr j = none) :
    parse_retry_delay_json j = quotaResetDelayPath j := by
  unfold retryDelayHintStr at h
  unfold parse_retry_delay_json
  cases h1 : (j.get (cs "error")).bind (Json.get (cs "retryInfo")) with
  | none => rfl
  | some retry_info =>
    rw [h1] at h
    have h2 : (retry_info.get (cs "retryDelay")).bind Json.asStr = none := h
    simp only []
    rw [h2]

/-- C8 fails on the code: the string 2ss is neither an int-ms nor a float-s
format, yet the duration parser accepts it as 2000 milliseconds, because
trim_end_matches strips trailing copies of the suffix repeatedly. -/
theorem C8_counterexample_2ss :
    isIntMsFormat (cs "2ss") = false ∧
    isFloatSFormat (cs "2ss") = false ∧
    parse_duration_ms (cs "2ss") = some 2000 := by
  refine ⟨by decide, by decide, by decide⟩

/-- C8 amended: parse_retry_delay reads error.retryInfo.retryDelay first
(a present string hint is final) and error.quotaResetDelay second; the
duration parser maps digits plus ms to that many milliseconds, a decimal
plus s to the truncated value times 1000 (1.5s to 1500, 200ms to 200, 2s to
2000), rejects every string not ending in s — including 1h16m0.667s — but
strips repeated suffix copies, accepting strings such as 2ss. -/
theorem C8_retry_hint_parsing :
    (∀ j ds, retryDelayHintStr j = some ds →
      parse_retry_delay_json j = parse_duration_ms ds) ∧
    (∀ j, retryDelayHintStr j = none →
      parse_retry_delay_json j = quotaResetDelayPath j) ∧
    (∀ t n, parseDigits t = some n → n < 2 ^ 64 →
      parse_duration_ms (t ++ cs "ms") = some n) ∧
    (∀ t d, parseF64Dec t = some d →
      parse_duration_ms (t ++ cs "s") = some (timesThousandAsU64 d)) ∧
    (∀ s, endsWithStr (cs "s") s = false → parse_duration_ms s = none) ∧
    parse_duration_ms (cs "1.5s") = some 1500 ∧
    parse_duration_ms (cs "200ms") = some 200 ∧
    parse_duration_ms (cs "2s") = some 2000 ∧
    parse_duration_ms (cs "1h16m0.667s") = none :=
  ⟨parse_retry_delay_json_priority, parse_retry_delay_json_fallback,
   parse_duration_ms_int_ms, parse_duration_ms_float_s,
   parse_duration_ms_rejects_non_s, by decide, by decide, by decide, by decide⟩

/-- C8 amended witness: the hint priority on a concrete quota body, the two
format mappings on concrete strings, and the rejection of a concrete
non-s string. -/
theorem C8_retry_hint_parsing_witness :
    parse_retry_delay_json quotaHintJson = parse_duration_ms (cs "1s") ∧
    parse_retry_delay_json (Json.obj []) = quotaResetDelayPath (Json.obj []) ∧
    parse_duration_ms (cs "200" ++ cs "ms") = some 200 ∧
    parse_duration_ms (cs "1.5" ++ cs "s") = some (timesThousandAsU64 (false, 15, 1)) ∧
    parse_duration_ms (cs "100m") = none :=
  ⟨C8_retry_hint_parsing.1 quotaHintJson (cs "1s") (by decide),
   C8_retry_hint_parsing.2.1 (Json.obj []) (by decide),
   C8_retry_hint_parsing.2.2.1 (cs "200") 200 (by decide) (by decide),
   C8_retry_hint_parsing.2.2.2.1 (cs "1.5") (false, 15, 1) (by decide),
   C8_retry_hint_parsing.2.2.2.2.1 (cs "100m") (by decide)⟩

/-- Appending a fresh key makes it findable. -/
theorem lookupField_append_of_none (k : Str) (fs : List (Str × Json)) (v : Json)
    (h : lookupField k fs = none) :
    lookupField k (fs ++ [(k, v)]) = some v := by
  induction fs with
  | nil => simp [lookupField]
  | cons hd tl ih =>
    obtain ⟨k2, v2⟩ := hd
    by_cases hk : k2 = k
    · rw [lookupField, if_pos hk] at h
      cases h
    · rw [lookupField, if_neg hk] at h
      simpa [lookupField, hk] using ih h

/-- setFirst on a fresh appended key touches exactly that entry. -/
theorem setFirst_append_of_none (k : Str) (fs : List (Str × Json)) (v : Json)
    (f : Json → Json) (h : lookupField k fs = none) :
    setFirst k f (fs ++ [(k, v)]) = fs ++ [(k, f v)] := by
  induction fs with
  | nil => simp [setFirst]
  | cons hd tl ih =>
    obtain ⟨k2, v2⟩ := hd
    by_cases hk : k2 = k
    · rw [lookupField, if_pos hk] at h
      cases h
    · rw [lookupField, if_neg hk] at h
      simp [setFirst, hk, ih h]

/-- setFirst rewrites the value the lookup sees. -/
theorem lookupField_setFirst (k : Str) (fs : List (Str × Json)) (v : Json)
    (f : Json → Json) (h : lookupField k fs = some v) :
    lookupField k (setFirst k f fs) = some (f v) := by
  induction fs with
  | nil => cases h
  | cons hd tl ih =>
    obtain ⟨k2, v2⟩ := hd
    by_cases hk : k2 = k
    · rw [lookupField, if_pos hk] at h
      injection h with hv
      subst hv
      simp [setFirst, lookupField, hk]
    · rw [lookupField, if_neg hk] at h
      simp [setFirst, lookupField, hk, ih h]

/-- A second setFirst is absorbed when the rewriter fixes the rewritten
value. -/
theorem setFirst_setFirst_of_fix (k : Str) (fs : List (Str × Json)) (v : Json)
    (f : Json → Json) (h : lookupField k fs = some v) (hfix : f (f v) = f v) :
    setFirst k f (setFirst k f fs) = setFirst k f fs := by
  induction fs with
  | nil => rfl
  | cons hd tl ih =>
    obtain ⟨k2, v2⟩ := hd
    by_cases hk : k2 = k
    · rw [lookupField, if_pos hk] at h
      injection h with hv
      subst hv
      simp [setFirst, hk, hfix]
    · rw [lookupField, if_neg hk] at h
      simp [setFirst, hk, ih h]

/-- C9 fails on the code: a body whose tools array already holds two
googleSearch entries keeps both after injection, so the array does not
contain the entry exactly once. -/
theorem C9_counterexample_duplicate_entries :
    toolsAbsentOrArray (Json.obj [(cs "tools", Json.arr [gsEntry, gsEntry])]) ∧
    countGoogleSearchEntries
      (inject_google_search_tool (Json.obj [(cs "tools", Json.arr [gsEntry, gsEntry])])) = 2 := by
  constructor
  · exact ⟨_, rfl, Or.inr ⟨[gsEntry, gsEntry], rfl⟩⟩
  · rfl

/-- C9 amended: on a JSON object whose tools field is absent or an array,
one application of inject_google_search_tool leaves at least one
googleSearch entry — exactly one whenever the input had at most one — and a
second application changes nothing. -/
theorem C9_inject_google_search_tool (body : Json) (hb : toolsAbsentOrArray body) :
    1 ≤ countGoogleSearchEntries (inject_google_search_tool body) ∧
    (countGoogleSearchEntries body ≤ 1 →
      countGoogleSearchEntries (inject_google_search_tool body) = 1) ∧
    inject_google_search_tool (inject_google_search_tool body) =
      inject_google_search_tool body := by
  obtain ⟨fs, rfl, hcase⟩ := hb
  rcases hcase with hnone | ⟨items, hsome⟩
  · -- tools absent: a fresh [gsEntry] array is appended
    have h1 : inject_google_search_tool (Json.obj fs) =
        Json.obj (fs ++ [(cs "tools", Json.arr [gsEntry])]) := by
      simp only [inject_google_search_tool, hnone, Option.isSome_none, Bool.false_eq_true,
        if_false]
      rw [setFirst_append_of_none _ _ _ _ hnone]
      rfl
    have hget := lookupField_append_of_none (cs "tools") fs (Json.arr [gsEntry]) hnone
    have hcount : countGoogleSearchEntries (inject_google_search_tool (Json.obj fs)) = 1 := by
      rw [h1]
      unfold countGoogleSearchEntries Json.get
      simp only []
      rw [hget]
      rfl
    refine ⟨by omega, fun _ => hcount, ?_⟩
    rw [h1]
    have hinj2 : inject_google_search_tool
        (Json.obj (fs ++ [(cs "tools", Json.arr [gsEntry])])) =
        Json.obj (fs ++ [(cs "tools", modifyTools (Json.arr [gsEntry]))]) := by
      simp only [inject_google_search_tool, hget, Option.isSome_some, if_true]
      rw [setFirst_append_of_none _ _ _ _ hnone]
    rw [hinj2]
    rfl
  · -- tools present as an array
    have h1 : inject_google_search_tool (Json.obj fs) =
        Json.obj (setFirst (cs "tools") modifyTools fs) := by
      simp only [inject_google_search_tool, hsome, Option.isSome_some, if_true]
    have hget := lookupField_setFirst (cs "tools") fs (Json.arr items) modifyTools hsome
    have hcount0 : countGoogleSearchEntries (Json.obj fs) = (items.filter gsPred).length := by
      unfold countGoogleSearchEntries Json.get
      simp only []
      rw [hsome]
    have hmod : modifyTools (Json.arr items) =
        (if items.any gsPred then Json.arr items else Json.arr (items ++ [gsEntry])) := rfl
    cases hany : items.any gsPred with
    | true =>
      obtain ⟨x, hxmem, hxp⟩ := List.any_eq_true.mp hany
      have hlenpos : 1 ≤ (items.filter gsPred).length := by
        have : x ∈ items.filter gsPred := List.mem_filter.mpr ⟨hxmem, hxp⟩
        have hne : items.filter gsPred ≠ [] := List.ne_nil_of_mem this
        cases hq : items.filter gsPred with
        | nil => exact absurd hq hne
        | cons a b => simp
      have hmodv : modifyTools (Json.arr items) = Json.arr items := by
        rw [hmod, if_pos hany]
      have hcount : countGoogleSearchEntries (inject_google_search_tool (Json.obj fs)) =
          (items.filter gsPred).length := by
        rw [h1]
        unfold countGoogleSearchEntries Json.get
        simp only []
        rw [hget, hmodv]
      refine ⟨by rw [hcount]; exact hlenpos, ?_, ?_⟩
      · intro hle
        rw [hcount0] at hle
        rw [hcount]
        omega
      · rw [h1]
        have h2 : inject_google_search_tool
            (Json.obj (setFirst (cs "tools") modifyTools fs)) =
            Json.obj (setFirst (cs "tools") modifyTools (setFirst (cs "tools") modifyTools fs)) := by
          simp only [inject_google_search_tool, hget, Option.isSome_some, if_true]
        rw [h2, setFirst_setFirst_of_fix (cs "tools") fs (Json.arr items) modifyTools hsome
          (by rw [hmodv, hmodv])]
    | false =>
      have hfilnil : items.filter gsPred = [] := by
        apply List.filter_eq_nil_iff.mpr
        intro a ha
        have h3 : ¬(gsPred a = true) := by
          intro hga
          have : items.any gsPred = true := List.any_eq_true.mpr ⟨a, ha, hga⟩
          rw [hany] at this
          cases this
        simpa using h3
      have hmodv : modifyTools (Json.arr items) = Json.arr (items ++ [gsEntry]) := by
        rw [hmod, if_neg (by rw [hany]; exact Bool.false_ne_true)]
      have hcount : countGoogleSearchEntries (inject_google_search_tool (Json.obj fs)) = 1 := by
        rw [h1]
        unfold countGoogleSearchEntries Json.get
        simp only []
        rw [hget, hmodv]
        simp [List.filter_append, hfilnil, gsPred, gsEntry, Json.get, lookupField]
      refine ⟨by omega, fun _ => hcount, ?_⟩
      rw [h1]
      have h2 : inject_google_search_tool
          (Json.obj (setFirst (cs "tools") modifyTools fs)) =
          Json.obj (setFirst (cs "tools") modifyTools (setFirst (cs "tools") modifyTools fs)) := by
        simp only [inject_google_search_tool, hget, Option.isSome_some, if_true]
      have hfix : modifyTools (modifyTools (Json.arr items)) = modifyTools (Json.arr items) := by
        rw [hmodv]
        show modifyTools (Json.arr (items ++ [gsEntry])) = _
        unfold modifyTools
        simp only []
        have hany2 : (items ++ [gsEntry]).any gsPred = true := by
          rw [List.any_append]
          simp [gsPred, gsEntry, Json.get, lookupField]
        rw [if_pos hany2]
      rw [h2, setFirst_setFirst_of_fix (cs "tools") fs (Json.arr items) modifyTools hsome hfix]

/-- C9 amended witness at a body without tools. -/
theorem C9_inject_google_search_tool_witness :
    1 ≤ countGoogleSearchEntries
        (inject_google_search_tool (Json.obj [(cs "model", .str (cs "m"))])) ∧
    countGoogleSearchEntries
        (inject_google_search_tool (Json.obj [(cs "model", .str (cs "m"))])) = 1 ∧
    inject_google_search_tool
        (inject_google_search_tool (Json.obj [(cs "model", .str (cs "m"))])) =
      inject_google_search_tool (Json.obj [(cs "model", .str (cs "m"))]) := by
  have h := C9_inject_google_search_tool (Json.obj [(cs "model", .str (cs "m"))])
    ⟨_, rfl, Or.inl rfl⟩
  exact ⟨h.1, h.2.1 (by decide), h.2.2⟩

/-- Automaton runs split over appended event lists. -/
theorem wfRunFrom_append (a : List CEvent) : ∀ (q : Nat) (b : List CEvent),
    wfRunFrom q (a ++ b) = (wfRunFrom q a).bind (fun q2 => wfRunFrom q2 b) := by
  induction a with
  | nil => intro q b; rfl
  | cons e rest ih =>
    intro q b
    cases h : wfStep q e with
    | none => simp [wfRunFrom, h]
    | some q2 => simp [wfRunFrom, h, ih]

/-- message_stop counting is additive. -/
theorem countMessageStop_append (a b : List CEvent) :
    countMessageStop (a ++ b) = countMessageStop a + countMessageStop b := by
  unfold countMessageStop
  rw [List.filter_append, List.length_append]

/-- The empty emission is a sound step. -/
theorem stepOk_nil (s : StreamingState) (h : SInv s) : StepOk s ([], s) := by
  unfold StepOk
  refine ⟨h, rfl, ?_, fun h2 => h2, fun h2 => h2⟩
  unfold countMessageStop
  cases hx : s.message_stop_sent <;> simp [hx]

/-- Sound steps compose. -/
theorem stepOk_comp (s : StreamingState) (p q : List CEvent × StreamingState)
    (h1 : StepOk s p) (h2 : StepOk p.2 q) : StepOk s (p.1 ++ q.1, q.2) := by
  obtain ⟨hi1, hw1, hc1, hsm1, hst1⟩ := h1
  obtain ⟨hi2, hw2, hc2, hsm2, hst2⟩ := h2
  refine ⟨hi2, ?_, ?_, fun hx => hsm2 (hsm1 hx), fun hx => hst2 (hst1 hx)⟩
  · rw [wfRunFrom_append, hw1]
    exact hw2
  · rw [countMessageStop_append, hc1, hc2]
    cases ha : s.message_stop_sent <;> cases hb : p.2.message_stop_sent <;>
      cases hc : q.2.message_stop_sent <;> simp_all

/-- emit_message_start is a sound step from an unstarted state. -/
theorem emit_message_start_ok (s : StreamingState) :
    SInv s → s.message_start_sent = false → StepOk s (emit_message_start s) := by
  rcases s with ⟨st, k, sp⟩
  unfold StepOk SInv
  cases st <;> cases k <;> cases sp <;> decide

/-- PartProcessor steps are sound once the message started. -/
theorem processPart_ok (s : StreamingState) (k : PartKind) :
    SInv s → s.message_start_sent = true → StepOk s (processPart s k) := by
  rcases s with ⟨st, kk, sp⟩
  unfold StepOk SInv
  cases st <;> cases kk <;> cases sp <;> cases k <;> decide

/-- emit_finish only looks at the presence of the reason. -/
theorem emit_finish_eq (s : StreamingState) (r : Option Str) :
    emit_finish s r = emitFinishB s r.isSome := by
  cases r <;> rfl

/-- emit_finish is a sound step. -/
theorem emit_finish_ok (s : StreamingState) (r : Option Str) (h : SInv s) :
    StepOk s (emit_finish s r) := by
  rw [emit_finish_eq]
  revert h
  generalize r.isSome = b
  rcases s with ⟨st, k, sp⟩
  unfold StepOk SInv
  cases st <;> cases k <;> cases sp <;> cases b <;> decide

/-- emit_force_stop is a sound step and guarantees the stop flag. -/
theorem emit_force_stop_ok (s : StreamingState) (h : SInv s) :
    StepOk s (emit_force_stop s) ∧ (emit_force_stop s).2.message_stop_sent = true := by
  revert h
  rcases s with ⟨st, k, sp⟩
  unfold StepOk SInv emit_force_stop
  rw [emit_finish_eq]
  cases st <;> cases k <;> cases sp <;> decide

/-- The start stage is sound and leaves the message started. -/
theorem startStage_ok (s : StreamingState) (h : SInv s) :
    StepOk s (startStage s) ∧ (startStage s).2.message_start_sent = true := by
  revert h
  rcases s with ⟨st, k, sp⟩
  unfold StepOk SInv startStage
  cases st <;> cases k <;> cases sp <;> decide

/-- The part fold is sound once the message started. -/
theorem processParts_ok : ∀ (ps : List Json) (s : StreamingState),
    SInv s → s.message_start_sent = true → StepOk s (processParts s ps) := by
  intro ps
  induction ps with
  | nil => intro s h1 _; exact stepOk_nil s h1
  | cons p rest ih =>
    intro s h1 h2
    cases hk : partKindOf p with
    | none =>
      have hnext := ih s h1 h2
      have hcomp := stepOk_comp s ([], s) (processParts s rest) (stepOk_nil s h1) hnext
      simpa [processParts, hk] using hcomp
    | some k =>
      have hstep := processPart_ok s k h1 h2
      have hstart2 : (processPart s k).2.message_start_sent = true := hstep.2.2.2.2 h2
      have hnext := ih (processPart s k).2 hstep.1 hstart2
      have hcomp := stepOk_comp s (processPart s k)
        (processParts (processPart s k).2 rest) hstep hnext
      simpa [processParts, hk] using hcomp

/-- The parts stage preserves soundness and the started flag. -/
theorem partsStage_ok (raw : Json) (p : List CEvent × StreamingState) (s : StreamingState)
    (h : StepOk s p) (hstart : p.2.message_start_sent = true) :
    StepOk s (partsStage raw p) ∧ (partsStage raw p).2.message_start_sent = true := by
  unfold partsStage
  cases partsOf raw with
  | none => exact ⟨h, hstart⟩
  | some ps =>
    have h2 := processParts_ok ps p.2 h.1 hstart
    exact ⟨stepOk_comp s p _ h h2, h2.2.2.2.2 hstart⟩

/-- The finish stage preserves soundness. -/
theorem finishStage_ok (raw : Json) (p : List CEvent × StreamingState) (s : StreamingState)
    (h : StepOk s p) : StepOk s (finishStage raw p) := by
  unfold finishStage
  cases finishReasonOf raw with
  | none => exact h
  | some reason => exact stepOk_comp s p _ h (emit_finish_ok p.2 (some reason) h.1)

/-- Processing one parsed JSON chunk is a sound step. -/
theorem processJsonChunk_ok (raw : Json) (s : StreamingState) (h : SInv s) :
    StepOk s (processJsonChunk raw s) := by
  obtain ⟨h1, h1s⟩ := startStage_ok s h
  obtain ⟨h2, _⟩ := partsStage_ok raw (startStage s) s h1 h1s
  exact finishStage_ok raw (partsStage raw (startStage s)) s h2

/-- Handling one data payload is a sound step. -/
theorem processDataStr_ok (parse : Str → Option Json) (ds : Str) (s : StreamingState)
    (h : SInv s) : StepOk s (processDataStr parse ds s) := by
  unfold processDataStr
  by_cases h1 : ds.isEmpty = true
  · rw [if_pos h1]
    exact stepOk_nil s h
  · rw [if_neg h1]
    by_cases h2 : (ds == cs "[DONE]") = true
    · rw [if_pos h2]
      exact (emit_force_stop_ok s h).1
    · rw [if_neg h2]
      cases parse ds with
      | none => exact stepOk_nil s h
      | some j => exact processJsonChunk_ok _ s h

/-- Handling one SSE line is a sound step. -/
theorem process_sse_line_ok (parse : Str → Option Json) (line : Str) (s : StreamingState)
    (h : SInv s) : StepOk s (process_sse_line parse line s) := by
  unfold process_sse_line
  by_cases h1 : (!startsWithStr (cs "data: ") line) = true
  · rw [if_pos h1]
    exact stepOk_nil s h
  · rw [if_neg h1]
    exact processDataStr_ok parse _ s h

/-- The per-line loop is a sound step. -/
theorem processLines_ok (parse : Str → Option Json) : ∀ (lines : List Str) (s : StreamingState),
    SInv s → StepOk s (processLines parse lines s) := by
  intro lines
  induction lines with
  | nil => intro s h; exact stepOk_nil s h
  | cons l rest ih =>
    intro s h
    by_cases ht : (trimStr l).isEmpty = true
    · have hnext := ih s h
      simpa [processLines, ht] using hnext
    · have hstep := process_sse_line_ok parse (trimStr l) s h
      have hnext := ih (process_sse_line parse (trimStr l) s).2 hstep.1
      have hcomp := stepOk_comp s (process_sse_line parse (trimStr l) s)
        (processLines parse rest (process_sse_line parse (trimStr l) s).2) hstep hnext
      simpa [processLines, ht] using hcomp

/-- Main invariant run: from any sound state the translated stream is
accepted by the grammar automaton and emits message_stop exactly once when
the state had not stopped yet. -/
theorem stream_go_ok (parse : Str → Option Json) :
    ∀ (chunks : List StreamChunk) (buf : Str) (s : StreamingState), SInv s →
      wfRunFrom (dfaOf s) (create_claude_sse_stream_go parse chunks buf s) = some 4 ∧
      countMessageStop (create_claude_sse_stream_go parse chunks buf s) =
        (if s.message_stop_sent then 0 else 1) := by
  intro chunks
  induction chunks with
  | nil =>
    intro buf s h
    obtain ⟨⟨hi, hw, hc, _, _⟩, hstop⟩ := emit_force_stop_ok s h
    constructor
    · show wfRunFrom (dfaOf s) (emit_force_stop s).1 = some 4
      rw [hw]
      simp [dfaOf, hstop]
    · show countMessageStop (emit_force_stop s).1 = _
      rw [hc]
      cases hx : s.message_stop_sent <;> simp [hx, hstop]
  | cons c rest ih =>
    intro buf s h
    cases c with
    | errChunk m =>
      obtain ⟨⟨hi, hw, hc, _, _⟩, hstop⟩ := emit_force_stop_ok s h
      constructor
      · show wfRunFrom (dfaOf s) (emit_force_stop s).1 = some 4
        rw [hw]
        simp [dfaOf, hstop]
      · show countMessageStop (emit_force_stop s).1 = _
        rw [hc]
        cases hx : s.message_stop_sent <;> simp [hx, hstop]
    | bytes b =>
      have hstep := processLines_ok parse (splitCompleteLines (buf ++ b)).1 s h
      obtain ⟨hi, hw, hc, hsm, _⟩ := hstep
      obtain ⟨hw2, hc2⟩ := ih (splitCompleteLines (buf ++ b)).2
        (processLines parse (splitCompleteLines (buf ++ b)).1 s).2 hi
      constructor
      · show wfRunFrom (dfaOf s)
          ((processLines parse (splitCompleteLines (buf ++ b)).1 s).1 ++
            create_claude_sse_stream_go parse rest (splitCompleteLines (buf ++ b)).2
              (processLines parse (splitCompleteLines (buf ++ b)).1 s).2) = some 4
        rw [wfRunFrom_append, hw]
        exact hw2
      · show countMessageStop
          ((processLines parse (splitCompleteLines (buf ++ b)).1 s).1 ++
            create_claude_sse_stream_go parse rest (splitCompleteLines (buf ++ b)).2
              (processLines parse (splitCompleteLines (buf ++ b)).1 s).2) = _
        rw [countMessageStop_append, hc, hc2]
        cases hx : s.message_stop_sent <;>
          cases hy : (processLines parse (splitCompleteLines (buf ++ b)).1 s).2.message_stop_sent <;>
            simp_all

/-- C3: for every serde parse oracle and every upstream byte stream — ended,
truncated or with a transport error, with or without [DONE] — the Claude
SSE translator emits an event sequence matching message_start
(content_block_start content_block_delta* content_block_stop)*
message_delta? message_stop, and message_stop is emitted exactly once. -/
theorem C3_claude_stream_well_formed (parse : Str → Option Json)
    (chunks : List StreamChunk) :
    claudeStreamWellFormed (create_claude_sse_stream_events parse chunks) = true ∧
    countMessageStop (create_claude_sse_stream_events parse chunks) = 1 := by
  have hinit : SInv StreamingState.init := by
    constructor
    · intro h2
      exact absurd rfl h2
    · intro h2
      exact (Bool.false_ne_true h2).elim
  obtain ⟨hw, hc⟩ := stream_go_ok parse chunks [] StreamingState.init hinit
  have hw0 : wfRunFrom 0 (create_claude_sse_stream_go parse chunks [] StreamingState.init) =
      some 4 := hw
  constructor
  · unfold claudeStreamWellFormed create_claude_sse_stream_events
    rw [hw0]
    rfl
  · exact hc

end AGM
